import Mathlib

/-! todo-choichoi: the todo handlers over a model of the store

A shallow embedding of `backend/internal/models/todo.go` and
`backend/internal/handlers/todo.go`.

* `Time` stands for Go's `time.Time`: an instant together with the location it
  is displayed in.  Payload and database times carry no monotonic clock
  reading, so none is modelled.
* `Todo` is `models.Todo`, field for field.
* `DB` is the todo table behind the `*gorm.DB` handle, as the list of its rows,
  each row being the struct the driver yields when the row is read.
  The gorm calls the handlers make (`Create`, `Find`, `First`, `Save`,
  `Delete`) are functions on it.  What the outside world decides during one
  request (clock readings, the generated uuid, a failing statement) is an
  explicit `Env`.
* `c.JSON` writes the status and then the encoded value; when encoding fails
  (a time that `MarshalJSON` refuses) the body stays empty.
* Every handler returns an `Outcome`: the HTTP response, the table afterwards
  and the list of gorm calls it issued, in order, each with the value passed
  and whether the call succeeded.
-/

namespace TodoChoichoi

/-! ## time.Time -/

/-- Location of a `time.Time`: UTC, or any other zone (name and offset in
seconds east of UTC). -/
inductive Location where
  | utc
  | zone (name : String) (offset : Int)
deriving DecidableEq, Repr

/-- Go's `time.Time`: `instant` counts nanoseconds since the zero time
(January 1, year 1, 00:00:00 UTC), `loc` is the location. -/
structure Time where
  instant : Int
  loc : Location
deriving DecidableEq, Repr

/-- The zero value `time.Time{}`. -/
def Time.zero : Time := { instant := 0, loc := Location.utc }

/-- Go's `t.UTC()`: the same instant with the location set to UTC. -/
def Time.UTC (t : Time) : Time := { t with loc := Location.utc }

/-- Offset of a location, in seconds east of UTC. -/
def Location.offset : Location → Int
  | Location.utc => 0
  | Location.zone _ o => o

/-- Nanoseconds from the zero time to January 1 of year 0, 00:00:00 (year 0
has 366 days). -/
def yearZeroStart : Int := -366 * 86400 * 1000000000

/-- Nanoseconds from the zero time to January 1 of year 10000, 00:00:00 (the
years 1 to 9999 have 3652059 days). -/
def yearTenThousandStart : Int := 3652059 * 86400 * 1000000000

/-- Whether Go's `t.MarshalJSON()` succeeds: the year of `t`, read in its
location, is in [0, 9999] and the zone offset is below 24 hours. -/
def Time.jsonOK (t : Time) : Bool :=
  decide (yearZeroStart ≤ t.instant + t.loc.offset * 1000000000)
    && decide (t.instant + t.loc.offset * 1000000000 < yearTenThousandStart)
    && decide (t.loc.offset.natAbs / 3600 < 24)

/-! ## models.Todo -/

/-- The record `models.Todo`; `Note` and `DueAt` are the pointer fields. -/
structure Todo where
  ID : String
  Title : String
  Note : Option String
  DueAt : Option Time
  Status : String
  CreatedAt : Time
  UpdatedAt : Time
deriving DecidableEq, Repr

/-- Whether `json.Marshal` succeeds on a todo: each of its times marshals. -/
def Todo.jsonOK (t : Todo) : Bool :=
  (match t.DueAt with
   | some d => d.jsonOK
   | none => true)
    && t.CreatedAt.jsonOK && t.UpdatedAt.jsonOK

/-- The zero value of `models.Todo`, what `var in models.Todo` declares. -/
def Todo.zero : Todo :=
  { ID := "", Title := "", Note := none, DueAt := none, Status := "",
    CreatedAt := Time.zero, UpdatedAt := Time.zero }

/-- A decoded JSON object sent as a todo payload: for each key of the wire
format, its value when the key is present and not null. -/
structure TodoPayload where
  id : Option String
  title : Option String
  note : Option String
  dueAt : Option Time
  status : Option String
  createdAt : Option Time
  updatedAt : Option Time
deriving DecidableEq, Repr

/-- The struct `ShouldBindJSON(&in)` leaves in `in` for a well-formed payload:
`in` starts as the zero value and only the keys present are assigned. -/
def bindTodo (p : TodoPayload) : Todo :=
  { ID := p.id.getD Todo.zero.ID,
    Title := p.title.getD Todo.zero.Title,
    Note := p.note,
    DueAt := p.dueAt,
    Status := p.status.getD Todo.zero.Status,
    CreatedAt := p.createdAt.getD Todo.zero.CreatedAt,
    UpdatedAt := p.updatedAt.getD Todo.zero.UpdatedAt }

/-! ## The store behind `*gorm.DB` -/

/-- The todo table: its rows. -/
structure DB where
  rows : List Todo
deriving DecidableEq, Repr

/-- What the outside world decides while one request is served. -/
structure Env where
  /-- Reading of `time.Now()` in the handler. -/
  now : Time
  /-- Reading of gorm's clock when it stamps `CreatedAt` / `UpdatedAt`. -/
  gormNow : Time
  /-- The value `gen_random_uuid()` yields if the insert needs one. -/
  uuid : String
  /-- The error, if any, the database returns for the query of this request
  (`First`, `Find`). -/
  readErr : Option String
  /-- The error, if any, the database returns for the write statement of this
  request (`Create`, `Save`, `Delete`): connectivity, a constraint of the
  schema, and so on. -/
  writeErr : Option String
deriving DecidableEq, Repr

/-- What gorm fills in on an insert, by the tags of `models.Todo`: a zero `ID`
is left to the column default `gen_random_uuid()`, a zero `Status` takes the
default `pending`, a zero-valued `CreatedAt` / `UpdatedAt` is stamped with
gorm's clock. -/
def gormFillDefaults (env : Env) (t : Todo) : Todo :=
  { t with
    ID := if t.ID = "" then env.uuid else t.ID,
    Status := if t.Status = "" then "pending" else t.Status,
    CreatedAt := if t.CreatedAt = Time.zero then env.gormNow else t.CreatedAt,
    UpdatedAt := if t.UpdatedAt = Time.zero then env.gormNow else t.UpdatedAt }

/-- The call `DB.Create(&t)`: the row is inserted with its defaults filled in;
an `ID` already in the table violates the primary key.  Gives the struct as
gorm leaves it and the table afterwards. -/
def gormCreate (db : DB) (env : Env) (t : Todo) : Except String (Todo × DB) :=
  match env.writeErr with
  | some e => Except.error e
  | none =>
    let t1 : Todo := gormFillDefaults env t
    if db.rows.any (fun r => r.ID == t1.ID) then
      Except.error "duplicate key value violates unique constraint"
    else
      Except.ok (t1, { rows := db.rows ++ [t1] })

/-- The call `DB.Order("created_at desc").Find(&items)`. -/
def gormFindOrdered (db : DB) (env : Env) : Except String (List Todo) :=
  match env.readErr with
  | some e => Except.error e
  | none =>
    Except.ok (db.rows.mergeSort (fun a b => decide (b.CreatedAt.instant ≤ a.CreatedAt.instant)))

/-- The call `DB.First(&existing, "id = ?", id)`: the row with that id, as the
driver yields it, or `ErrRecordNotFound`.  Ids are opaque strings, compared as
such. -/
def gormFirst (db : DB) (env : Env) (id : String) : Except String Todo :=
  match env.readErr with
  | some e => Except.error e
  | none =>
    match db.rows.find? (fun r => r.ID == id) with
    | some r => Except.ok r
    | none => Except.error "record not found"

/-- The call `DB.Save(&t)`.  With a zero primary key it is `Create`; otherwise
every column of the row with that key is written, `UpdatedAt` stamped with
gorm's clock, and the row is inserted when no row has the key. -/
def gormSave (db : DB) (env : Env) (t : Todo) : Except String (Todo × DB) :=
  if t.ID = "" then gormCreate db env t
  else
    match env.writeErr with
    | some e => Except.error e
    | none =>
      let t1 : Todo := { t with UpdatedAt := env.gormNow }
      if db.rows.any (fun r => r.ID == t1.ID) then
        Except.ok (t1, { rows := db.rows.map (fun r => if r.ID = t1.ID then t1 else r) })
      else
        Except.ok (t1, { rows := db.rows ++ [t1] })

/-- The call `DB.Delete(&models.Todo{}, "id = ?", id)`: `models.Todo` has no
soft-delete column, so the matching rows are removed. -/
def gormDelete (db : DB) (env : Env) (id : String) : Except String DB :=
  match env.writeErr with
  | some e => Except.error e
  | none => Except.ok { rows := db.rows.filter (fun r => !(r.ID == id)) }

/-! ## Responses and the trace of store calls -/

/-- Body written by `c.String` (plain text) or `c.JSON`; `empty` when nothing
was written. -/
inductive Body where
  | text (s : String)
  | json (t : Todo)
  | jsonList (ts : List Todo)
  | empty
deriving DecidableEq, Repr

/-- HTTP response: status code and body. -/
structure Response where
  code : Nat
  body : Body
deriving DecidableEq, Repr

/-- The constant `http.StatusOK`. -/
def StatusOK : Nat := 200

/-- The constant `http.StatusBadRequest`. -/
def StatusBadRequest : Nat := 400

/-- The call `c.JSON(code, t)` on a todo: the status is set, and the body is the
encoded todo unless encoding fails, in which case gin writes no body. -/
def ginJSON (code : Nat) (t : Todo) : Response :=
  if t.jsonOK then ⟨code, Body.json t⟩ else ⟨code, Body.empty⟩

/-- The call `c.JSON(code, items)` on a slice of todos. -/
def ginJSONList (code : Nat) (items : List Todo) : Response :=
  if items.all Todo.jsonOK then ⟨code, Body.jsonList items⟩ else ⟨code, Body.empty⟩

/-- One gorm call issued by a handler: the value passed and whether the call
returned without error. -/
inductive DBCall where
  | create (t : Todo) (ok : Bool)
  | find (ok : Bool)
  | first (id : String) (ok : Bool)
  | save (t : Todo) (ok : Bool)
  | delete (id : String) (ok : Bool)
deriving DecidableEq, Repr

/-- Result of serving one request. -/
structure Outcome where
  resp : Response
  db : DB
  calls : List DBCall
deriving DecidableEq, Repr

/-! ## handlers/todo.go -/

/-- The handler `TodoHandler.Create`; `body` is the bound struct, `none` when
`ShouldBindJSON` fails. -/
def TodoHandler.Create (db : DB) (env : Env) (body : Option Todo) : Outcome :=
  match body with
  | none => { resp := ⟨StatusBadRequest, Body.text "invalid payload"⟩, db := db, calls := [] }
  | some in0 =>
    let in1 : Todo := if in0.Status = "" then { in0 with Status := "pending" } else in0
    let in2 : Todo :=
      match in1.DueAt with
      | some d => { in1 with DueAt := some d.UTC }
      | none => in1
    match gormCreate db env in2 with
    | Except.error e =>
      { resp := ⟨StatusBadRequest, Body.text e⟩, db := db, calls := [DBCall.create in2 false] }
    | Except.ok (created, db1) =>
      { resp := ginJSON StatusOK created, db := db1, calls := [DBCall.create in2 true] }

/-- The handler `TodoHandler.List`. -/
def TodoHandler.List (db : DB) (env : Env) : Outcome :=
  match gormFindOrdered db env with
  | Except.error e =>
    { resp := ⟨StatusBadRequest, Body.text e⟩, db := db, calls := [DBCall.find false] }
  | Except.ok items =>
    { resp := ginJSONList StatusOK items, db := db, calls := [DBCall.find true] }

/-- The handler `TodoHandler.Update`; `id` is the path parameter, `body` the
bound struct, `none` when `ShouldBindJSON` fails. -/
def TodoHandler.Update (db : DB) (env : Env) (id : String) (body : Option Todo) : Outcome :=
  match body with
  | none => { resp := ⟨StatusBadRequest, Body.text "invalid payload"⟩, db := db, calls := [] }
  | some in0 =>
    match gormFirst db env id with
    | Except.error _ =>
      { resp := ⟨StatusBadRequest, Body.text "not found"⟩, db := db,
        calls := [DBCall.first id false] }
    | Except.ok existing =>
      let e1 : Todo := { existing with Title := in0.Title }
      let e2 : Todo := { e1 with Note := in0.Note }
      let e3 : Todo := { e2 with Status := in0.Status }
      let e4 : Todo :=
        match in0.DueAt with
        | some d => { e3 with DueAt := some d.UTC }
        | none => e3
      match gormSave db env e4 with
      | Except.error e =>
        { resp := ⟨StatusBadRequest, Body.text e⟩, db := db,
          calls := [DBCall.first id true, DBCall.save e4 false] }
      | Except.ok (saved, db1) =>
        { resp := ginJSON StatusOK saved, db := db1,
          calls := [DBCall.first id true, DBCall.save e4 true] }

/-- The handler `TodoHandler.Delete`. -/
def TodoHandler.Delete (db : DB) (env : Env) (id : String) : Outcome :=
  match gormDelete db env id with
  | Except.error e =>
    { resp := ⟨StatusBadRequest, Body.text e⟩, db := db, calls := [DBCall.delete id false] }
  | Except.ok db1 =>
    { resp := ⟨StatusOK, Body.text "ok"⟩, db := db1, calls := [DBCall.delete id true] }

/-- The handler `TodoHandler.ToggleComplete`; `body` is the bound `completed`
flag, `none` when `ShouldBindJSON` fails. -/
def TodoHandler.ToggleComplete (db : DB) (env : Env) (id : String) (body : Option Bool) :
    Outcome :=
  match body with
  | none => { resp := ⟨StatusBadRequest, Body.text "invalid payload"⟩, db := db, calls := [] }
  | some completed =>
    match gormFirst db env id with
    | Except.error _ =>
      { resp := ⟨StatusBadRequest, Body.text "not found"⟩, db := db,
        calls := [DBCall.first id false] }
    | Except.ok existing =>
      let e1 : Todo := { existing with Status := if completed then "completed" else "pending" }
      let e2 : Todo := if completed then { e1 with UpdatedAt := env.now.UTC } else e1
      match gormSave db env e2 with
      | Except.error e =>
        { resp := ⟨StatusBadRequest, Body.text e⟩, db := db,
          calls := [DBCall.first id true, DBCall.save e2 false] }
      | Except.ok (saved, db1) =>
        { resp := ginJSON StatusOK saved, db := db1,
          calls := [DBCall.first id true, DBCall.save e2 true] }

/-! ## Requests and the routes of `TodoHandler.Register` -/

/-- A request on one of the five routes, with its path parameter and the result
of binding its body (`none`: the body does not parse). -/
inductive Request where
  | Create (body : Option Todo)
  | List
  | Update (id : String) (body : Option Todo)
  | Delete (id : String)
  | ToggleComplete (id : String) (body : Option Bool)
deriving DecidableEq, Repr

/-- Whether the handler binds a body and the binding fails. -/
def Request.bindFails : Request → Bool
  | Request.Create b => b.isNone
  | Request.List => false
  | Request.Update _ b => b.isNone
  | Request.Delete _ => false
  | Request.ToggleComplete _ b => b.isNone

/-- Dispatch of `TodoHandler.Register`: each route to its handler. -/
def serve (db : DB) (env : Env) : Request → Outcome
  | Request.Create b => TodoHandler.Create db env b
  | Request.List => TodoHandler.List db env
  | Request.Update id b => TodoHandler.Update db env id b
  | Request.Delete id => TodoHandler.Delete db env id
  | Request.ToggleComplete id b => TodoHandler.ToggleComplete db env id b

/-- Serving a sequence of requests, one after the other, each in its own
environment: the final table and all store calls issued, in order. -/
def serveAll (db : DB) : List (Env × Request) → DB × List DBCall
  | [] => (db, [])
  | (env, req) :: rest =>
    let o := serve db env req
    let r := serveAll o.db rest
    (r.1, o.calls ++ r.2)

/-- Whether a call returned an error. -/
def DBCall.failed : DBCall → Bool
  | DBCall.create _ ok => !ok
  | DBCall.find ok => !ok
  | DBCall.first _ ok => !ok
  | DBCall.save _ ok => !ok
  | DBCall.delete _ ok => !ok

/-- The record a call hands to the store to be written, if it is a `Create` or
a `Save`. -/
def DBCall.written : DBCall → Option Todo
  | DBCall.create t _ => some t
  | DBCall.save t _ => some t
  | _ => none

/-- The records handed to `Create` / `Save` by a list of calls. -/
def writtenBy (calls : List DBCall) : List Todo := calls.filterMap DBCall.written

/-- The record a response carries as JSON, if any. -/
def Response.record (r : Response) : Option Todo :=
  match r.body with
  | Body.json t => some t
  | _ => none

/-- A status of the enumeration: `"pending"` or `"completed"`. -/
def StatusValid (s : String) : Prop := s = "pending" ∨ s = "completed"

instance (s : String) : Decidable (StatusValid s) := by
  unfold StatusValid; infer_instance

/-- A `DueAt` that is absent or in UTC. -/
def DueUTC (d : Option Time) : Prop := ∀ t, d = some t → t.loc = Location.utc

/-- The records an outcome carries: those handed to `Create` / `Save`, and the
one returned as JSON. -/
def Outcome.records (o : Outcome) : List Todo := writtenBy o.calls ++ o.resp.record.toList

/-- Requests whose payload status, if they carry one, is of the enumeration;
`Create` may also leave it empty. -/
def Request.statusAdmissible : Request → Prop
  | Request.Create (some t) => t.Status = "" ∨ StatusValid t.Status
  | Request.Update _ (some t) => StatusValid t.Status
  | _ => True

/-- The causes of a client error the specification names, read off the request,
the table and the environment: the body fails to parse, the lookup finds no
record, or a store call returns an error (a statement the database fails, or an
insert under a key the table already holds). -/
def Request.clientError (db : DB) (env : Env) : Request → Prop
  | Request.Create b =>
    b = none ∨ env.writeErr ≠ none
      ∨ ∃ input, b = some input
          ∧ ∃ x ∈ db.rows, x.ID = (if input.ID = "" then env.uuid else input.ID)
  | Request.List => env.readErr ≠ none
  | Request.Update id b =>
    b = none ∨ env.readErr ≠ none ∨ (∀ r ∈ db.rows, r.ID ≠ id) ∨ env.writeErr ≠ none
      ∨ (id = "" ∧ ∃ x ∈ db.rows, x.ID = env.uuid)
  | Request.Delete _ => env.writeErr ≠ none
  | Request.ToggleComplete id b =>
    b = none ∨ env.readErr ≠ none ∨ (∀ r ∈ db.rows, r.ID ≠ id) ∨ env.writeErr ≠ none
      ∨ (id = "" ∧ ∃ x ∈ db.rows, x.ID = env.uuid)

/-- The common tail of `Update` and `ToggleComplete` (`h.DB.Save(&existing)`,
then the error or the JSON response), as a function of the record saved. -/
def saveAndRespond (db : DB) (env : Env) (id : String) (t : Todo) : Outcome :=
  match gormSave db env t with
  | Except.error e =>
    { resp := ⟨StatusBadRequest, Body.text e⟩, db := db,
      calls := [DBCall.first id true, DBCall.save t false] }
  | Except.ok (saved, db1) =>
    { resp := ginJSON StatusOK saved, db := db1,
      calls := [DBCall.first id true, DBCall.save t true] }

/-- The tail of `Create` (`h.DB.Create(&in)`, then the error or the JSON
response), as a function of the record inserted. -/
def createAndRespond (db : DB) (env : Env) (t : Todo) : Outcome :=
  match gormCreate db env t with
  | Except.error e =>
    { resp := ⟨StatusBadRequest, Body.text e⟩, db := db, calls := [DBCall.create t false] }
  | Except.ok (created, db1) =>
    { resp := ginJSON StatusOK created, db := db1, calls := [DBCall.create t true] }

/-! ## Sample values -/

/-- A stored todo. -/
def sampleTodo : Todo :=
  { ID := "u-1", Title := "Buy milk", Note := some "2 litres",
    DueAt := some { instant := 900, loc := Location.utc }, Status := "pending",
    CreatedAt := { instant := 100, loc := Location.utc },
    UpdatedAt := { instant := 100, loc := Location.utc } }

/-- A table holding `sampleTodo` only. -/
def sampleDB : DB := { rows := [sampleTodo] }

/-- An environment in which no database statement fails. -/
def sampleEnv : Env :=
  { now := { instant := 5000, loc := Location.zone "ICT" 25200 },
    gormNow := { instant := 5001, loc := Location.zone "ICT" 25200 },
    uuid := "u-2", readErr := none, writeErr := none }

/-- A payload with the keys `title` and `dueAt` (offset +07:00) only. -/
def samplePayload : TodoPayload :=
  { id := none, title := some "Call mum", note := none,
    dueAt := some { instant := 7000, loc := Location.zone "" 25200 },
    status := none, createdAt := none, updatedAt := none }

/-- The time `9999-12-31T23:59:59-01:00` as bound from JSON: in UTC it is
`10000-01-01T00:59:59Z`. -/
def y10kDue : Time :=
  { instant := 315537901199000000000, loc := Location.zone "" (-3600) }

/-- The payload with `title` and `dueAt` = `9999-12-31T23:59:59-01:00` only. -/
def y10kCreatePayload : TodoPayload :=
  { id := none, title := some "y10k", note := none, dueAt := some y10kDue,
    status := none, createdAt := none, updatedAt := none }

/-- The payload with `title`, `status` = `pending` and
`dueAt` = `9999-12-31T23:59:59-01:00`. -/
def y10kUpdatePayload : TodoPayload :=
  { id := none, title := some "T", note := none, dueAt := some y10kDue,
    status := some "pending", createdAt := none, updatedAt := none }

/-- A stored todo whose `dueAt` is `10000-01-01T00:59:59Z`, the row that
`Create` inserts for `y10kCreatePayload`. -/
def y10kTodo : Todo :=
  { ID := "u-2", Title := "y10k", Note := none, DueAt := some y10kDue.UTC,
    Status := "pending",
    CreatedAt := { instant := 5001, loc := Location.zone "ICT" 25200 },
    UpdatedAt := { instant := 5001, loc := Location.zone "ICT" 25200 } }

/-- A table holding `y10kTodo` only. -/
def y10kDB : DB := { rows := [y10kTodo] }

end TodoChoichoi

namespace TodoChoichoi

/-! ## The gorm calls: what a successful write leaves behind -/

theorem gormFillDefaults_fields (env : Env) (t : Todo) :
    (gormFillDefaults env t).Title = t.Title ∧ (gormFillDefaults env t).Note = t.Note
      ∧ (gormFillDefaults env t).DueAt = t.DueAt
      ∧ (gormFillDefaults env t).Status = (if t.Status = "" then "pending" else t.Status) :=
  ⟨rfl, rfl, rfl, rfl⟩

/-- The id gorm inserts under: the one given, or the generated one. -/
theorem gormFillDefaults_ID (env : Env) (t : Todo) :
    (gormFillDefaults env t).ID = if t.ID = "" then env.uuid else t.ID := rfl

theorem gormCreate_ok {db : DB} {env : Env} {t r : Todo} {db1 : DB}
    (h : gormCreate db env t = Except.ok (r, db1)) :
    r = gormFillDefaults env t ∧ db1.rows = db.rows ++ [r] := by
  unfold gormCreate at h
  cases hw : env.writeErr with
  | some e => simp [hw] at h
  | none =>
    simp only [hw] at h
    split at h
    · cases h
    · injection h with h
      injection h with h1 h2
      subst h1 h2
      exact ⟨rfl, rfl⟩

/-- A failing `Create` is a database error or a key the table already holds. -/
theorem gormCreate_error_iff (db : DB) (env : Env) (t : Todo) :
    (∃ e, gormCreate db env t = Except.error e) ↔
      (env.writeErr ≠ none ∨ ∃ x ∈ db.rows, x.ID = (if t.ID = "" then env.uuid else t.ID)) := by
  unfold gormCreate
  cases hw : env.writeErr with
  | some e => simp
  | none =>
    simp only [ne_eq, not_true_eq_false, false_or]
    by_cases hc : db.rows.any (fun r => r.ID == (gormFillDefaults env t).ID) = true
    · rw [if_pos hc]
      simp only [List.any_eq_true, beq_iff_eq, gormFillDefaults_ID] at hc
      exact ⟨fun _ => hc, fun _ => ⟨_, rfl⟩⟩
    · rw [if_neg hc]
      simp only [List.any_eq_true, beq_iff_eq, gormFillDefaults_ID] at hc
      constructor
      · rintro ⟨e, he⟩
        cases he
      · intro h
        exact absurd h hc

/-- Without a database error and without a key clash, `Create` succeeds. -/
theorem gormCreate_succeeds (db : DB) (env : Env) (t : Todo) (hw : env.writeErr = none)
    (hfresh : ∀ x ∈ db.rows, x.ID ≠ (if t.ID = "" then env.uuid else t.ID)) :
    gormCreate db env t
      = Except.ok (gormFillDefaults env t, { rows := db.rows ++ [gormFillDefaults env t] }) := by
  unfold gormCreate
  simp only [hw]
  rw [if_neg]
  simp only [List.any_eq_true, beq_iff_eq, not_exists, not_and]
  intro x hx
  rw [gormFillDefaults_ID]
  exact hfresh x hx

theorem gormSave_ok {db : DB} {env : Env} {t r : Todo} {db1 : DB}
    (h : gormSave db env t = Except.ok (r, db1)) :
    r.Title = t.Title ∧ r.Note = t.Note ∧ r.DueAt = t.DueAt
      ∧ (t.Status ≠ "" ∨ t.ID ≠ "" → r.Status = t.Status)
      ∧ r ∈ db1.rows ∧ ∀ x ∈ db1.rows, x ∈ db.rows ∨ x = r := by
  unfold gormSave at h
  split at h
  · rename_i hid
    obtain ⟨h0, h5⟩ := gormCreate_ok h
    obtain ⟨h1, h2, h3, h4⟩ := gormFillDefaults_fields env t
    rw [← h0] at h1 h2 h3 h4
    refine ⟨h1, h2, h3, ?_, ?_, ?_⟩
    · intro hs
      rcases hs with hs | hs
      · rw [h4, if_neg hs]
      · exact absurd hid hs
    · rw [h5]; simp
    · intro x hx
      rw [h5] at hx
      simpa using hx
  · cases hw : env.writeErr with
    | some e => simp [hw] at h
    | none =>
      simp only [hw] at h
      split at h
      · rename_i hany
        injection h with h
        injection h with h1 h2
        subst h1 h2
        refine ⟨rfl, rfl, rfl, fun _ => rfl, ?_, ?_⟩
        · simp only [List.any_eq_true, beq_iff_eq] at hany
          obtain ⟨x, hx, hid⟩ := hany
          simp only [List.mem_map]
          exact ⟨x, hx, by simp [hid]⟩
        · intro x hx
          simp only [List.mem_map] at hx
          obtain ⟨y, hy, rfl⟩ := hx
          split
          · exact Or.inr rfl
          · exact Or.inl hy
      · injection h with h
        injection h with h1 h2
        subst h1 h2
        refine ⟨rfl, rfl, rfl, fun _ => rfl, by simp, ?_⟩
        intro x hx
        simpa using hx

theorem gormSave_key {db : DB} {env : Env} {t r : Todo} {db1 : DB}
    (h : gormSave db env t = Except.ok (r, db1)) (hid : t.ID ≠ "") :
    r.ID = t.ID ∧ r.CreatedAt = t.CreatedAt := by
  unfold gormSave at h
  rw [if_neg hid] at h
  cases hw : env.writeErr with
  | some e => simp [hw] at h
  | none =>
    simp only [hw] at h
    split at h <;>
    · injection h with h
      injection h with h1 h2
      subst h1
      exact ⟨rfl, rfl⟩

theorem gormSave_succeeds (db : DB) (env : Env) (t : Todo) (hid : t.ID ≠ "")
    (hw : env.writeErr = none) : ∃ r db1, gormSave db env t = Except.ok (r, db1) := by
  unfold gormSave
  rw [if_neg hid]
  simp only [hw]
  split
  · exact ⟨_, _, rfl⟩
  · exact ⟨_, _, rfl⟩

/-- A failing `Save` is a database error or, on a zero key, an insert under a
generated key the table already holds. -/
theorem gormSave_error_iff (db : DB) (env : Env) (t : Todo) :
    (∃ e, gormSave db env t = Except.error e) ↔
      (env.writeErr ≠ none ∨ (t.ID = "" ∧ ∃ x ∈ db.rows, x.ID = env.uuid)) := by
  by_cases hid : t.ID = ""
  · have hS : gormSave db env t = gormCreate db env t := by
      unfold gormSave
      rw [if_pos hid]
    rw [hS, gormCreate_error_iff, if_pos hid]
    simp [hid]
  · constructor
    · rintro ⟨e, he⟩
      left
      intro hw
      obtain ⟨r, db1, hs⟩ := gormSave_succeeds db env t hid hw
      rw [hs] at he
      cases he
    · rintro (hw | ⟨h, _⟩)
      · unfold gormSave
        rw [if_neg hid]
        cases hwe : env.writeErr with
        | none => exact absurd hwe hw
        | some e => exact ⟨e, rfl⟩
      · exact absurd h hid

theorem gormFirst_ok {db : DB} {env : Env} {id : String} {e : Todo}
    (h : gormFirst db env id = Except.ok e) : e ∈ db.rows ∧ e.ID = id ∧ env.readErr = none := by
  unfold gormFirst at h
  cases hr : env.readErr with
  | some x => simp [hr] at h
  | none =>
    simp only [hr] at h
    cases hf : db.rows.find? (fun r => r.ID == id) with
    | none => simp [hf] at h
    | some r =>
      simp only [hf] at h
      injection h with h
      subst h
      refine ⟨List.mem_of_find?_eq_some hf, ?_, rfl⟩
      simpa using List.find?_some hf

theorem gormFirst_missing (db : DB) (env : Env) (id : String)
    (h : ∀ r ∈ db.rows, r.ID ≠ id) : ∃ e, gormFirst db env id = Except.error e := by
  unfold gormFirst
  cases hr : env.readErr with
  | some x => exact ⟨x, rfl⟩
  | none =>
    have hf : db.rows.find? (fun r => r.ID == id) = none := by
      rw [List.find?_eq_none]
      intro r hr
      simpa using h r hr
    simp only [hf]
    exact ⟨_, rfl⟩

/-- A lookup that fails is a database error or a missing record. -/
theorem gormFirst_error {db : DB} {env : Env} {id e : String}
    (h : gormFirst db env id = Except.error e) :
    env.readErr ≠ none ∨ ∀ r ∈ db.rows, r.ID ≠ id := by
  unfold gormFirst at h
  cases hr : env.readErr with
  | some x => exact Or.inl (by simp)
  | none =>
    right
    simp only [hr] at h
    cases hf : db.rows.find? (fun r => r.ID == id) with
    | some r => simp [hf] at h
    | none =>
      rw [List.find?_eq_none] at hf
      intro r hmem
      simpa using hf r hmem

/-- The lookup fails exactly on a database error or a missing record. -/
theorem gormFirst_error_iff (db : DB) (env : Env) (id : String) :
    (∃ e, gormFirst db env id = Except.error e) ↔
      (env.readErr ≠ none ∨ ∀ r ∈ db.rows, r.ID ≠ id) := by
  constructor
  · rintro ⟨e, he⟩
    exact gormFirst_error he
  · rintro (h | h)
    · unfold gormFirst
      cases hr : env.readErr with
      | none => exact absurd hr h
      | some x => exact ⟨x, rfl⟩
    · exact gormFirst_missing db env id h

end TodoChoichoi

namespace TodoChoichoi

/-! ## The call `c.JSON` -/

theorem ginJSON_code (c : Nat) (t : Todo) : (ginJSON c t).code = c := by
  unfold ginJSON
  split <;> rfl

theorem ginJSON_ok (c : Nat) (t : Todo) (h : t.jsonOK = true) :
    ginJSON c t = ⟨c, Body.json t⟩ := by
  unfold ginJSON
  rw [if_pos h]

theorem ginJSON_fails (c : Nat) (t : Todo) (h : t.jsonOK = false) :
    ginJSON c t = ⟨c, Body.empty⟩ := by
  unfold ginJSON
  rw [if_neg (by simp [h])]

theorem ginJSON_record {c : Nat} {t r : Todo} (h : (ginJSON c t).record = some r) :
    r = t ∧ t.jsonOK = true := by
  unfold ginJSON at h
  split at h
  · rename_i hj
    simp only [Response.record, Option.some.injEq] at h
    exact ⟨h.symm, hj⟩
  · simp [Response.record] at h

theorem ginJSONList_code (c : Nat) (ts : List Todo) : (ginJSONList c ts).code = c := by
  unfold ginJSONList
  split <;> rfl

/-! ## The handlers, step by step -/

/-- The handler `Update` once the lookup has found `existing`: the merged
record is handed to `Save`, and the response follows the result of `Save`. -/
theorem Update_found {db : DB} {env : Env} {id : String} (input : Todo) {existing : Todo}
    (hf : gormFirst db env id = Except.ok existing) :
    ∃ t : Todo, t.ID = existing.ID ∧ t.CreatedAt = existing.CreatedAt
      ∧ t.Title = input.Title ∧ t.Note = input.Note ∧ t.Status = input.Status
      ∧ t.DueAt = (match input.DueAt with
                   | some d => some d.UTC
                   | none => existing.DueAt)
      ∧ TodoHandler.Update db env id (some input) =
          saveAndRespond db env id t := by
  unfold TodoHandler.Update
  simp only [hf]
  cases hd : input.DueAt with
  | none =>
    exact ⟨{ existing with Title := input.Title, Note := input.Note, Status := input.Status },
      rfl, rfl, rfl, rfl, rfl, rfl, rfl⟩
  | some d =>
    exact ⟨{ existing with Title := input.Title, Note := input.Note, Status := input.Status,
                           DueAt := some d.UTC },
      rfl, rfl, rfl, rfl, rfl, rfl, rfl⟩

/-- The handler `Update` when the lookup fails. -/
theorem Update_not_found {db : DB} {env : Env} {id e : String} (input : Todo)
    (hf : gormFirst db env id = Except.error e) :
    TodoHandler.Update db env id (some input)
      = { resp := ⟨StatusBadRequest, Body.text "not found"⟩, db := db,
          calls := [DBCall.first id false] } := by
  unfold TodoHandler.Update
  simp only [hf]

/-- The handler `ToggleComplete` once the lookup has found `existing`. -/
theorem ToggleComplete_found {db : DB} {env : Env} {id : String} (completed : Bool)
    {existing : Todo} (hf : gormFirst db env id = Except.ok existing) :
    ∃ t : Todo, t.ID = existing.ID ∧ t.CreatedAt = existing.CreatedAt
      ∧ t.Title = existing.Title ∧ t.Note = existing.Note ∧ t.DueAt = existing.DueAt
      ∧ t.Status = (if completed then "completed" else "pending")
      ∧ TodoHandler.ToggleComplete db env id (some completed) =
          saveAndRespond db env id t := by
  unfold TodoHandler.ToggleComplete
  simp only [hf]
  cases completed with
  | false =>
    exact ⟨{ existing with Status := "pending" }, rfl, rfl, rfl, rfl, rfl, rfl, rfl⟩
  | true =>
    exact ⟨{ existing with Status := "completed", UpdatedAt := env.now.UTC },
      rfl, rfl, rfl, rfl, rfl, rfl, rfl⟩

/-- The handler `ToggleComplete` when the lookup fails. -/
theorem ToggleComplete_not_found {db : DB} {env : Env} {id e : String} (completed : Bool)
    (hf : gormFirst db env id = Except.error e) :
    TodoHandler.ToggleComplete db env id (some completed)
      = { resp := ⟨StatusBadRequest, Body.text "not found"⟩, db := db,
          calls := [DBCall.first id false] } := by
  unfold TodoHandler.ToggleComplete
  simp only [hf]

/-- The handler `Create` on a bound payload: the prepared record is handed to
`Create`, and the response follows the result. -/
theorem Create_bound (db : DB) (env : Env) (input : Todo) :
    ∃ t : Todo, t.ID = input.ID ∧ t.Title = input.Title ∧ t.Note = input.Note
      ∧ t.Status = (if input.Status = "" then "pending" else input.Status)
      ∧ t.DueAt = input.DueAt.map Time.UTC
      ∧ TodoHandler.Create db env (some input) =
          createAndRespond db env t := by
  unfold TodoHandler.Create
  simp only []
  refine ⟨{ input with Status := if input.Status = "" then "pending" else input.Status,
                        DueAt := input.DueAt.map Time.UTC }, rfl, rfl, rfl, rfl, rfl, ?_⟩
  obtain ⟨i, ti, n, d, st, c, u⟩ := input
  by_cases hs : st = "" <;> cases d <;> simp [hs, createAndRespond]

/-- What `saveAndRespond` yields: one `Save` of `t`; the records it carries are
`t` and, on success, the struct gorm leaves, which is then in the table and is
the body whenever it encodes. -/
theorem saveAndRespond_spec (db : DB) (env : Env) (id : String) (t : Todo) :
    (∃ ok, (saveAndRespond db env id t).calls = [DBCall.first id true, DBCall.save t ok]
        ∧ (ok = false ↔ (saveAndRespond db env id t).resp.code = StatusBadRequest)
        ∧ (ok = true ↔ (saveAndRespond db env id t).resp.code = StatusOK))
    ∧ (∀ r ∈ (saveAndRespond db env id t).records,
        r = t ∨ ∃ db1, gormSave db env t = Except.ok (r, db1))
    ∧ (∀ r, (saveAndRespond db env id t).resp.record = some r →
        gormSave db env t = Except.ok (r, (saveAndRespond db env id t).db))
    ∧ (∀ r db1, gormSave db env t = Except.ok (r, db1) →
        (saveAndRespond db env id t).resp = ginJSON StatusOK r
          ∧ (saveAndRespond db env id t).db = db1)
    ∧ (∀ e, gormSave db env t = Except.error e →
        (saveAndRespond db env id t).resp = ⟨StatusBadRequest, Body.text e⟩
          ∧ (saveAndRespond db env id t).db = db) := by
  unfold saveAndRespond
  cases hs : gormSave db env t with
  | error e =>
    refine ⟨⟨false, rfl, by simp, by simp [StatusOK, StatusBadRequest]⟩, ?_, ?_, ?_, ?_⟩
    · intro r hr
      left
      simpa [Outcome.records, writtenBy, DBCall.written, Response.record] using hr
    · intro r hr
      simp [Response.record] at hr
    · intro r db1 h
      cases h
    · intro e1 h
      injection h with h
      subst h
      exact ⟨rfl, rfl⟩
  | ok p =>
    obtain ⟨r0, db0⟩ := p
    refine ⟨⟨true, rfl, ?_, ?_⟩, ?_, ?_, ?_, ?_⟩
    · simp [ginJSON_code, StatusOK, StatusBadRequest]
    · simp [ginJSON_code]
    · intro r hr
      simp only [Outcome.records, writtenBy, DBCall.written, List.filterMap_cons,
        List.filterMap_nil, List.cons_append, List.nil_append, List.mem_cons,
        Option.mem_toList, Option.mem_def] at hr
      rcases hr with h | h
      · exact Or.inl h
      · exact Or.inr ⟨db0, by rw [(ginJSON_record h).1]⟩
    · intro r hr
      simp only [] at hr ⊢
      rw [(ginJSON_record hr).1]
    · intro r db1 h
      injection h with h
      injection h with h1 h2
      subst h1 h2
      exact ⟨rfl, rfl⟩
    · intro e h
      cases h

/-- The fields every record carried by `saveAndRespond` shares with the record
saved. -/
theorem saveAndRespond_fields (db : DB) (env : Env) (id : String) (t : Todo) :
    ∀ r ∈ (saveAndRespond db env id t).records,
      r.Title = t.Title ∧ r.Note = t.Note ∧ r.DueAt = t.DueAt
        ∧ (t.Status ≠ "" ∨ t.ID ≠ "" → r.Status = t.Status) := by
  intro r hr
  rcases (saveAndRespond_spec db env id t).2.1 r hr with h | ⟨db1, h⟩
  · subst h
    exact ⟨rfl, rfl, rfl, fun _ => rfl⟩
  · obtain ⟨h1, h2, h3, h4, _⟩ := gormSave_ok h
    exact ⟨h1, h2, h3, h4⟩

/-- With a non-zero key and no database error, `saveAndRespond` saves a record
that is in the table afterwards and answers 200 with it as the body, or with
no body when it does not encode. -/
theorem saveAndRespond_succeeds (db : DB) (env : Env) (id : String) (t : Todo)
    (hid : t.ID ≠ "") (hw : env.writeErr = none) :
    ∃ r, (saveAndRespond db env id t).resp = ginJSON StatusOK r
      ∧ r ∈ (saveAndRespond db env id t).db.rows ∧ r.ID = t.ID ∧ r.CreatedAt = t.CreatedAt
      ∧ r.Title = t.Title ∧ r.Note = t.Note ∧ r.DueAt = t.DueAt ∧ r.Status = t.Status := by
  obtain ⟨r, db1, hs⟩ := gormSave_succeeds db env t hid hw
  obtain ⟨h1, h2⟩ := (saveAndRespond_spec db env id t).2.2.2.1 r db1 hs
  obtain ⟨g1, g2, g3, g4, g5, _⟩ := gormSave_ok hs
  obtain ⟨k1, k2⟩ := gormSave_key hs hid
  exact ⟨r, h1, by rw [h2]; exact g5, k1, k2, g1, g2, g3, g4 (Or.inr hid)⟩

/-- What `createAndRespond` yields: one `Create` of `t`; the records it carries
are `t` and, on success, the struct gorm leaves, appended to the table. -/
theorem createAndRespond_spec (db : DB) (env : Env) (t : Todo) :
    (∃ ok, (createAndRespond db env t).calls = [DBCall.create t ok]
        ∧ (ok = false ↔ (createAndRespond db env t).resp.code = StatusBadRequest)
        ∧ (ok = true ↔ (createAndRespond db env t).resp.code = StatusOK))
    ∧ (∀ r ∈ (createAndRespond db env t).records,
        r = t ∨ ∃ db1, gormCreate db env t = Except.ok (r, db1))
    ∧ (∀ r, (createAndRespond db env t).resp.record = some r →
        gormCreate db env t = Except.ok (r, (createAndRespond db env t).db))
    ∧ (∀ r db1, gormCreate db env t = Except.ok (r, db1) →
        (createAndRespond db env t).resp = ginJSON StatusOK r
          ∧ (createAndRespond db env t).db = db1)
    ∧ (∀ e, gormCreate db env t = Except.error e →
        (createAndRespond db env t).resp = ⟨StatusBadRequest, Body.text e⟩
          ∧ (createAndRespond db env t).db = db) := by
  unfold createAndRespond
  cases hs : gormCreate db env t with
  | error e =>
    refine ⟨⟨false, rfl, by simp, by simp [StatusOK, StatusBadRequest]⟩, ?_, ?_, ?_, ?_⟩
    · intro r hr
      left
      simpa [Outcome.records, writtenBy, DBCall.written, Response.record] using hr
    · intro r hr
      simp [Response.record] at hr
    · intro r db1 h
      cases h
    · intro e1 h
      injection h with h
      subst h
      exact ⟨rfl, rfl⟩
  | ok p =>
    obtain ⟨r0, db0⟩ := p
    refine ⟨⟨true, rfl, ?_, ?_⟩, ?_, ?_, ?_, ?_⟩
    · simp [ginJSON_code, StatusOK, StatusBadRequest]
    · simp [ginJSON_code]
    · intro r hr
      simp only [Outcome.records, writtenBy, DBCall.written, List.filterMap_cons,
        List.filterMap_nil, List.cons_append, List.nil_append, List.mem_cons,
        Option.mem_toList, Option.mem_def] at hr
      rcases hr with h | h
      · exact Or.inl h
      · exact Or.inr ⟨db0, by rw [(ginJSON_record h).1]⟩
    · intro r hr
      simp only [] at hr ⊢
      rw [(ginJSON_record hr).1]
    · intro r db1 h
      injection h with h
      injection h with h1 h2
      subst h1 h2
      exact ⟨rfl, rfl⟩
    · intro e h
      cases h

/-- The fields every record carried by `createAndRespond` shares with the
record inserted. -/
theorem createAndRespond_fields (db : DB) (env : Env) (t : Todo) :
    ∀ r ∈ (createAndRespond db env t).records,
      r.Title = t.Title ∧ r.Note = t.Note ∧ r.DueAt = t.DueAt
        ∧ (t.Status ≠ "" → r.Status = t.Status) := by
  intro r hr
  rcases (createAndRespond_spec db env t).2.1 r hr with h | ⟨db1, h⟩
  · subst h
    exact ⟨rfl, rfl, rfl, fun _ => rfl⟩
  · obtain ⟨h0, _⟩ := gormCreate_ok h
    rw [h0]
    obtain ⟨h1, h2, h3, h4⟩ := gormFillDefaults_fields env t
    refine ⟨h1, h2, h3, ?_⟩
    intro hs
    rw [h4, if_neg hs]

end TodoChoichoi

namespace TodoChoichoi

theorem gormSave_status {db : DB} {env : Env} {t r : Todo} {db1 : DB}
    (h : gormSave db env t = Except.ok (r, db1)) :
    r.Status = t.Status ∨ r.Status = "pending" := by
  by_cases hs : t.Status = ""
  · by_cases hid : t.ID = ""
    · right
      have hS : gormSave db env t = gormCreate db env t := by
        unfold gormSave
        rw [if_pos hid]
      rw [hS] at h
      rw [(gormCreate_ok h).1, (gormFillDefaults_fields env t).2.2.2, if_pos hs]
    · exact Or.inl ((gormSave_ok h).2.2.2.1 (Or.inr hid))
  · exact Or.inl ((gormSave_ok h).2.2.2.1 (Or.inl hs))

/-! ## Update -/

/-- For an existing record and a parseable Update payload, Update issues one
Save, and every record it hands to Save or returns keeps the stored dueAt when
the payload has none and carries the payload instant converted to UTC when the
payload has one; when the database does not fail the record saved is in the
table, and the answer is 200 with that record as the body if it encodes as JSON
and with no body if it does not. -/
theorem update_dueAt_kept_or_replaced (db : DB) (env : Env) (id : String)
    (input existing : Todo) (hf : gormFirst db env id = Except.ok existing) :
    (∃ t ok, (TodoHandler.Update db env id (some input)).calls
        = [DBCall.first id true, DBCall.save t ok]
        ∧ (input.DueAt = none → t.DueAt = existing.DueAt)
        ∧ (∀ d, input.DueAt = some d → t.DueAt = some d.UTC))
    ∧ (∀ r ∈ (TodoHandler.Update db env id (some input)).records,
        (input.DueAt = none → r.DueAt = existing.DueAt)
        ∧ (∀ d, input.DueAt = some d →
            r.DueAt = some d.UTC ∧ d.UTC.instant = d.instant ∧ d.UTC.loc = Location.utc))
    ∧ (env.writeErr = none → id ≠ "" →
        ∃ r, r ∈ (TodoHandler.Update db env id (some input)).db.rows
          ∧ (input.DueAt = none → r.DueAt = existing.DueAt)
          ∧ (∀ d, input.DueAt = some d → r.DueAt = some d.UTC)
          ∧ (TodoHandler.Update db env id (some input)).resp = ginJSON 200 r) := by
  obtain ⟨t, hID, _, _, _, _, hDue, hU⟩ := Update_found input hf
  rw [hU]
  have hcase : ∀ x : Todo, x.DueAt = t.DueAt →
      (input.DueAt = none → x.DueAt = existing.DueAt)
        ∧ (∀ d, input.DueAt = some d → x.DueAt = some d.UTC) := by
    intro x hx
    rw [hx, hDue]
    constructor
    · intro hn
      rw [hn]
    · intro d hd
      rw [hd]
  refine ⟨?_, ?_, ?_⟩
  · obtain ⟨ok, h, _⟩ := (saveAndRespond_spec db env id t).1
    exact ⟨t, ok, h, (hcase t rfl).1, (hcase t rfl).2⟩
  · intro r hr
    obtain ⟨_, _, h3, _⟩ := saveAndRespond_fields db env id t r hr
    exact ⟨(hcase r h3).1, fun d hd => ⟨(hcase r h3).2 d hd, rfl, rfl⟩⟩
  · intro hw hid
    have hne : t.ID ≠ "" := by
      rw [hID, (gormFirst_ok hf).2.1]
      exact hid
    obtain ⟨r, h1, h2, _, _, _, _, h7, _⟩ := saveAndRespond_succeeds db env id t hne hw
    exact ⟨r, h2, (hcase r h7).1, (hcase r h7).2, h1⟩

/-- C2: on the stored record `u-1`, Update with the payload whose dueAt is
9999-12-31T23:59:59-01:00 saves the record with that dueAt converted to UTC
(year 10000) and answers 200 with an empty body: the record saved is not
returned. -/
theorem update_y10k_dueAt_saved_not_returned :
    gormFirst sampleDB sampleEnv "u-1" = Except.ok sampleTodo
    ∧ (TodoHandler.Update sampleDB sampleEnv "u-1" (some (bindTodo y10kUpdatePayload))).resp
        = ⟨200, Body.empty⟩
    ∧ (TodoHandler.Update sampleDB sampleEnv "u-1" (some (bindTodo y10kUpdatePayload))).db.rows.map
        Todo.DueAt = [some y10kDue.UTC]
    ∧ (writtenBy
        (TodoHandler.Update sampleDB sampleEnv "u-1" (some (bindTodo y10kUpdatePayload))).calls).map
        Todo.DueAt = [some y10kDue.UTC]
    ∧ y10kDue.jsonOK = true ∧ y10kDue.UTC.jsonOK = false :=
  ⟨rfl, by decide, by decide, by decide, by decide, by decide⟩

/-- C3: when no record of the table has the given id, Update on a parseable
payload answers 400 with the text "not found", leaves the table as it was and
issues the lookup only, no Save. -/
theorem update_missing_id (db : DB) (env : Env) (id : String) (input : Todo)
    (hmiss : ∀ r ∈ db.rows, r.ID ≠ id) :
    TodoHandler.Update db env id (some input)
      = { resp := ⟨400, Body.text "not found"⟩, db := db, calls := [DBCall.first id false] } := by
  obtain ⟨e, he⟩ := gormFirst_missing db env id hmiss
  unfold TodoHandler.Update
  simp only [he]
  rfl

theorem update_missing_id_witness :
    (∀ r ∈ sampleDB.rows, r.ID ≠ "u-9")
    ∧ TodoHandler.Update sampleDB sampleEnv "u-9" (some (bindTodo samplePayload))
      = { resp := ⟨400, Body.text "not found"⟩, db := sampleDB,
          calls := [DBCall.first "u-9" false] } :=
  ⟨by decide, update_missing_id sampleDB sampleEnv "u-9" (bindTodo samplePayload) (by decide)⟩

/-- For an existing record and a parseable Update payload, the record Update
hands to Save has the title, note and status of the payload, whatever the
stored record held: a key the payload omits gives the zero value (empty title,
nil note, empty status), not the stored value; when the database does not fail
the record saved is in the table with these fields, and the answer is 200 with
that record as the body if it encodes as JSON and with no body if it does
not. -/
theorem update_overwrites_fields (db : DB) (env : Env) (id : String) (p : TodoPayload)
    (existing : Todo) (hf : gormFirst db env id = Except.ok existing) :
    (∃ t ok, (TodoHandler.Update db env id (some (bindTodo p))).calls
        = [DBCall.first id true, DBCall.save t ok]
        ∧ t.Title = p.title.getD "" ∧ t.Note = p.note ∧ t.Status = p.status.getD "")
    ∧ (∀ r ∈ (TodoHandler.Update db env id (some (bindTodo p))).records,
        r.Title = p.title.getD "" ∧ r.Note = p.note
          ∧ (id ≠ "" → r.Status = p.status.getD ""))
    ∧ (env.writeErr = none → id ≠ "" →
        ∃ r, r ∈ (TodoHandler.Update db env id (some (bindTodo p))).db.rows
          ∧ r.Title = p.title.getD "" ∧ r.Note = p.note ∧ r.Status = p.status.getD ""
          ∧ (TodoHandler.Update db env id (some (bindTodo p))).resp = ginJSON 200 r) := by
  obtain ⟨t, hID, _, hT, hN, hS, _, hU⟩ := Update_found (bindTodo p) hf
  rw [hU]
  have hkey : id ≠ "" → t.ID ≠ "" := by
    intro hid
    rw [hID, (gormFirst_ok hf).2.1]
    exact hid
  refine ⟨?_, ?_, ?_⟩
  · obtain ⟨ok, h, _⟩ := (saveAndRespond_spec db env id t).1
    exact ⟨t, ok, h, hT, hN, hS⟩
  · intro r hr
    obtain ⟨h1, h2, _, h4⟩ := saveAndRespond_fields db env id t r hr
    refine ⟨by rw [h1, hT]; rfl, by rw [h2, hN]; rfl, ?_⟩
    intro hid
    rw [h4 (Or.inr (hkey hid)), hS]
    rfl
  · intro hw hid
    obtain ⟨r, h1, h2, _, _, h5, h6, _, h8⟩ := saveAndRespond_succeeds db env id t (hkey hid) hw
    exact ⟨r, h2, by rw [h5, hT]; rfl, by rw [h6, hN]; rfl, by rw [h8, hS]; rfl, h1⟩

/-- C8: on the stored record `u-1`, Update with the payload carrying title "T",
status "pending" and dueAt 9999-12-31T23:59:59-01:00 saves a record with the
title, note and status of the payload, and answers 200 with an empty body: the
record saved is not returned. -/
theorem update_y10k_fields_saved_not_returned :
    gormFirst sampleDB sampleEnv "u-1" = Except.ok sampleTodo
    ∧ (TodoHandler.Update sampleDB sampleEnv "u-1" (some (bindTodo y10kUpdatePayload))).resp.body
        = Body.empty
    ∧ (TodoHandler.Update sampleDB sampleEnv "u-1" (some (bindTodo y10kUpdatePayload))).resp.code
        = 200
    ∧ (TodoHandler.Update sampleDB sampleEnv "u-1" (some (bindTodo y10kUpdatePayload))).db.rows.map
        (fun r => (r.Title, r.Note, r.Status)) = [("T", none, "pending")]
    ∧ (TodoHandler.Update sampleDB sampleEnv "u-1"
        (some (bindTodo y10kUpdatePayload))).resp.record = none :=
  ⟨rfl, by decide, by decide, by decide, by decide⟩

end TodoChoichoi

namespace TodoChoichoi

/-! ## ToggleComplete -/

/-- For an existing record and either value of completed, ToggleComplete issues
one Save of a record with the id and createdAt of the stored record; every
record it hands to Save or returns has status "completed" when completed is
true and "pending" when it is false, whatever the status was, and the title,
note and dueAt of the stored record; when the database does not fail the record
saved is in the table with the stored id and createdAt (a stored primary key is
a uuid, never the empty string), and the answer is 200 with that record as the
body if it encodes as JSON and with no body if it does not. -/
theorem toggle_sets_status (db : DB) (env : Env) (id : String) (completed : Bool)
    (existing : Todo) (hf : gormFirst db env id = Except.ok existing) :
    (∃ t ok, (TodoHandler.ToggleComplete db env id (some completed)).calls
        = [DBCall.first id true, DBCall.save t ok]
        ∧ t.ID = existing.ID ∧ t.CreatedAt = existing.CreatedAt)
    ∧ (∀ r ∈ (TodoHandler.ToggleComplete db env id (some completed)).records,
        (completed = true → r.Status = "completed")
        ∧ (completed = false → r.Status = "pending")
        ∧ r.Title = existing.Title ∧ r.Note = existing.Note ∧ r.DueAt = existing.DueAt)
    ∧ (env.writeErr = none → id ≠ "" →
        ∃ r, r ∈ (TodoHandler.ToggleComplete db env id (some completed)).db.rows
          ∧ r.ID = existing.ID ∧ r.CreatedAt = existing.CreatedAt
          ∧ r.Status = (if completed then "completed" else "pending")
          ∧ r.Title = existing.Title ∧ r.Note = existing.Note ∧ r.DueAt = existing.DueAt
          ∧ (TodoHandler.ToggleComplete db env id (some completed)).resp = ginJSON 200 r) := by
  obtain ⟨t, hID, hC, hT, hN, hDue, hS, hU⟩ := ToggleComplete_found completed hf
  rw [hU]
  have hne : t.Status ≠ "" := by
    rw [hS]
    cases completed <;> decide
  refine ⟨?_, ?_, ?_⟩
  · obtain ⟨ok, h, _⟩ := (saveAndRespond_spec db env id t).1
    exact ⟨t, ok, h, hID, hC⟩
  · intro r hr
    obtain ⟨h1, h2, h3, h4⟩ := saveAndRespond_fields db env id t r hr
    rw [h1, h2, h3, h4 (Or.inl hne), hT, hN, hDue, hS]
    refine ⟨?_, ?_, rfl, rfl, rfl⟩
    · intro hc
      rw [hc]
      rfl
    · intro hc
      rw [hc]
      rfl
  · intro hw hid
    have hkey : t.ID ≠ "" := by
      rw [hID, (gormFirst_ok hf).2.1]
      exact hid
    obtain ⟨r, h1, h2, h3, h4, h5, h6, h7, h8⟩ := saveAndRespond_succeeds db env id t hkey hw
    exact ⟨r, h2, by rw [h3, hID], by rw [h4, hC], by rw [h8, hS], by rw [h5, hT],
      by rw [h6, hN], by rw [h7, hDue], h1⟩

/-- C4: on the stored record `u-2`, whose dueAt is 10000-01-01T00:59:59Z,
ToggleComplete with completed = true saves the record with status "completed"
and the stored id, title, note, dueAt and createdAt, and answers 200 with an
empty body: the record saved is not returned. -/
theorem toggle_y10k_saved_not_returned :
    gormFirst y10kDB sampleEnv "u-2" = Except.ok y10kTodo
    ∧ (TodoHandler.ToggleComplete y10kDB sampleEnv "u-2" (some true)).resp = ⟨200, Body.empty⟩
    ∧ (TodoHandler.ToggleComplete y10kDB sampleEnv "u-2" (some true)).db.rows
        = [{ y10kTodo with Status := "completed", UpdatedAt := sampleEnv.gormNow }]
    ∧ (TodoHandler.ToggleComplete y10kDB sampleEnv "u-2" (some true)).calls
        = [DBCall.first "u-2" true,
           DBCall.save { y10kTodo with Status := "completed", UpdatedAt := sampleEnv.now.UTC }
             true] :=
  ⟨rfl, by decide, by decide, by decide⟩

/-- C9: for an existing record, the record Update hands to Save (whatever id or
createdAt the payload carries) and the record ToggleComplete hands to Save have
the id and the createdAt of the stored record. -/
theorem save_keeps_id_createdAt (db : DB) (env : Env) (id : String) (input : Todo)
    (completed : Bool) (existing : Todo) (hf : gormFirst db env id = Except.ok existing) :
    (∃ t ok, (TodoHandler.Update db env id (some input)).calls
        = [DBCall.first id true, DBCall.save t ok]
        ∧ t.ID = existing.ID ∧ t.CreatedAt = existing.CreatedAt)
    ∧ (∃ t ok, (TodoHandler.ToggleComplete db env id (some completed)).calls
        = [DBCall.first id true, DBCall.save t ok]
        ∧ t.ID = existing.ID ∧ t.CreatedAt = existing.CreatedAt) := by
  constructor
  · obtain ⟨t, hID, hC, _, _, _, _, hU⟩ := Update_found input hf
    rw [hU]
    obtain ⟨ok, h, _⟩ := (saveAndRespond_spec db env id t).1
    exact ⟨t, ok, h, hID, hC⟩
  · obtain ⟨t, hID, hC, _, _, _, _, hU⟩ := ToggleComplete_found completed hf
    rw [hU]
    obtain ⟨ok, h, _⟩ := (saveAndRespond_spec db env id t).1
    exact ⟨t, ok, h, hID, hC⟩

theorem save_keeps_id_createdAt_witness :
    gormFirst sampleDB sampleEnv "u-1" = Except.ok sampleTodo
    ∧ ∃ t ok, (TodoHandler.Update sampleDB sampleEnv "u-1"
          (some { bindTodo samplePayload with
                    ID := "u-7", CreatedAt := { instant := 1, loc := Location.utc } })).calls
        = [DBCall.first "u-1" true, DBCall.save t ok]
        ∧ t.ID = sampleTodo.ID ∧ t.CreatedAt = sampleTodo.CreatedAt :=
  ⟨rfl, (save_keeps_id_createdAt sampleDB sampleEnv "u-1"
      { bindTodo samplePayload with ID := "u-7", CreatedAt := { instant := 1, loc := Location.utc } }
      true sampleTodo rfl).1⟩

/-! ## Create -/

/-- For a parseable Create payload, Create issues one insert; every record it
hands to the store or returns has status "pending" when the bound status is
empty, and the status of the payload when it is not; without a database error
or key clash the record inserted is the row appended to the table, and the
answer is 200 with that record as the body if it encodes as JSON and with no
body if it does not. -/
theorem create_status_default (db : DB) (env : Env) (input : Todo) :
    (∃ t ok, (TodoHandler.Create db env (some input)).calls = [DBCall.create t ok])
    ∧ (∀ r ∈ (TodoHandler.Create db env (some input)).records,
        (input.Status = "" → r.Status = "pending")
        ∧ (input.Status ≠ "" → r.Status = input.Status))
    ∧ (∀ r, (TodoHandler.Create db env (some input)).resp.record = some r →
        (TodoHandler.Create db env (some input)).db.rows = db.rows ++ [r])
    ∧ (env.writeErr = none →
        (∀ x ∈ db.rows, x.ID ≠ (if input.ID = "" then env.uuid else input.ID)) →
        ∃ r, (TodoHandler.Create db env (some input)).db.rows = db.rows ++ [r]
          ∧ (input.Status = "" → r.Status = "pending")
          ∧ (input.Status ≠ "" → r.Status = input.Status)
          ∧ (TodoHandler.Create db env (some input)).resp = ginJSON 200 r) := by
  obtain ⟨t, hID, _, _, hS, _, hC⟩ := Create_bound db env input
  rw [hC]
  have hne : t.Status ≠ "" := by
    rw [hS]
    by_cases h : input.Status = ""
    · rw [if_pos h]
      decide
    · rw [if_neg h]
      exact h
  have hst : ∀ x : Todo, x.Status = t.Status →
      (input.Status = "" → x.Status = "pending")
        ∧ (input.Status ≠ "" → x.Status = input.Status) := by
    intro x hx
    rw [hx, hS]
    constructor
    · intro h
      rw [if_pos h]
    · intro h
      rw [if_neg h]
  refine ⟨?_, ?_, ?_, ?_⟩
  · obtain ⟨ok, h, _⟩ := (createAndRespond_spec db env t).1
    exact ⟨t, ok, h⟩
  · intro r hr
    obtain ⟨_, _, _, h4⟩ := createAndRespond_fields db env t r hr
    exact hst r (h4 hne)
  · intro r hr
    exact (gormCreate_ok ((createAndRespond_spec db env t).2.2.1 r hr)).2
  · intro hw hfresh
    rw [← hID] at hfresh
    have hg := gormCreate_succeeds db env t hw hfresh
    obtain ⟨h1, h2⟩ := (createAndRespond_spec db env t).2.2.2.1 _ _ hg
    refine ⟨gormFillDefaults env t, by rw [h2], ?_, ?_, h1⟩
    · exact (hst _ (by rw [(gormFillDefaults_fields env t).2.2.2, if_neg hne])).1
    · exact (hst _ (by rw [(gormFillDefaults_fields env t).2.2.2, if_neg hne])).2

/-- C5: on a table without the generated id, Create with the payload carrying
only a title and dueAt 9999-12-31T23:59:59-01:00 (status omitted) inserts the
row with status "pending" and dueAt converted to UTC (year 10000), and answers
200 with an empty body: the record inserted is not returned. -/
theorem create_y10k_inserted_not_returned :
    (TodoHandler.Create sampleDB sampleEnv (some (bindTodo y10kCreatePayload))).resp
        = ⟨200, Body.empty⟩
    ∧ (TodoHandler.Create sampleDB sampleEnv (some (bindTodo y10kCreatePayload))).db.rows
        = [sampleTodo, y10kTodo]
    ∧ y10kTodo.Status = "pending"
    ∧ (bindTodo y10kCreatePayload).Status = ""
    ∧ (TodoHandler.Create sampleDB sampleEnv (some (bindTodo y10kCreatePayload))).calls
        = [DBCall.create
            { bindTodo y10kCreatePayload with Status := "pending", DueAt := some y10kDue.UTC }
            true] := by
  decide

end TodoChoichoi

namespace TodoChoichoi

/-! ## Delete and List -/

theorem gormDelete_ok (db : DB) (env : Env) (id : String) (hw : env.writeErr = none) :
    gormDelete db env id = Except.ok { rows := db.rows.filter (fun r => !(r.ID == id)) } := by
  unfold gormDelete
  simp only [hw]

theorem List_ok (db : DB) (env : Env) (hr : env.readErr = none) :
    ∃ items, (TodoHandler.List db env).resp = ginJSONList StatusOK items
      ∧ ∀ r, r ∈ items ↔ r ∈ db.rows := by
  unfold TodoHandler.List gormFindOrdered
  simp only [hr]
  exact ⟨_, rfl, fun r => List.mem_mergeSort⟩

theorem List_items (db : DB) (env : Env) (items : List Todo)
    (h : (TodoHandler.List db env).resp.body = Body.jsonList items) :
    ∀ r, r ∈ items ↔ r ∈ db.rows := by
  unfold TodoHandler.List gormFindOrdered at h
  cases hr : env.readErr with
  | some e => simp [hr] at h
  | none =>
    simp only [hr, ginJSONList] at h
    split at h
    · injection h with h
      subst h
      exact fun r => List.mem_mergeSort
    · cases h

/-- C6: when the store call of Delete does not fail, Delete answers 200 "ok" and
the table holds exactly the prior rows whose id differs from the given one, in
their order; if no row has the id the table and any following List are as
before; and a following List shows exactly the prior rows with another id, so
no record with the deleted id (it answers 200, with the list as the body when
the rows left encode as JSON). -/
theorem delete_removes_exactly_id (db : DB) (env : Env) (id : String)
    (hw : env.writeErr = none) :
    (TodoHandler.Delete db env id).resp = ⟨200, Body.text "ok"⟩
    ∧ (TodoHandler.Delete db env id).calls = [DBCall.delete id true]
    ∧ (TodoHandler.Delete db env id).db.rows = db.rows.filter (fun r => decide (r.ID ≠ id))
    ∧ ((∀ r ∈ db.rows, r.ID ≠ id) →
        (TodoHandler.Delete db env id).db = db
          ∧ ∀ env1, TodoHandler.List (TodoHandler.Delete db env id).db env1
              = TodoHandler.List db env1)
    ∧ (∀ env1 items,
        (TodoHandler.List (TodoHandler.Delete db env id).db env1).resp.body = Body.jsonList items →
        ∀ r, r ∈ items ↔ r ∈ db.rows ∧ r.ID ≠ id)
    ∧ (∀ env1, env1.readErr = none →
        (TodoHandler.List (TodoHandler.Delete db env id).db env1).resp.code = 200
        ∧ ((∀ r ∈ db.rows, r.ID ≠ id → r.jsonOK = true) →
          ∃ items, (TodoHandler.List (TodoHandler.Delete db env id).db env1).resp
            = ⟨200, Body.jsonList items⟩)) := by
  have hD : TodoHandler.Delete db env id
      = { resp := ⟨StatusOK, Body.text "ok"⟩,
          db := { rows := db.rows.filter (fun r => !(r.ID == id)) },
          calls := [DBCall.delete id true] } := by
    unfold TodoHandler.Delete
    rw [gormDelete_ok db env id hw]
  rw [hD]
  refine ⟨rfl, rfl, ?_, ?_, ?_, ?_⟩
  · apply List.filter_congr
    intro x _
    by_cases hx : x.ID = id <;> simp [hx]
  · intro hmiss
    have hrows : db.rows.filter (fun r => !(r.ID == id)) = db.rows := by
      rw [List.filter_eq_self]
      intro a ha
      simpa using hmiss a ha
    have hdb : ({ rows := db.rows.filter (fun r => !(r.ID == id)) } : DB) = db := by
      rw [hrows]
    simp only [hdb]
    exact ⟨trivial, fun _ => trivial⟩
  · intro env1 items h r
    rw [List_items _ env1 items h r]
    simp
  · intro env1 hr
    obtain ⟨items, h, hmem⟩ :=
      List_ok { rows := db.rows.filter (fun r => !(r.ID == id)) } env1 hr
    simp only [] at h ⊢
    rw [h]
    refine ⟨ginJSONList_code _ _, ?_⟩
    intro henc
    refine ⟨items, ?_⟩
    unfold ginJSONList
    rw [if_pos]
    · rfl
    · rw [List.all_eq_true]
      intro x hx
      have hx1 := (hmem x).1 hx
      simp only [List.mem_filter, Bool.not_eq_true', beq_eq_false_iff_ne, ne_eq] at hx1
      exact henc x hx1.1 hx1.2

theorem delete_removes_exactly_id_witness :
    sampleEnv.writeErr = none
    ∧ (TodoHandler.Delete sampleDB sampleEnv "u-1").resp = ⟨200, Body.text "ok"⟩
    ∧ (TodoHandler.Delete sampleDB sampleEnv "u-1").db.rows = [] :=
  ⟨rfl, (delete_removes_exactly_id sampleDB sampleEnv "u-1" rfl).1,
    (delete_removes_exactly_id sampleDB sampleEnv "u-1" rfl).2.2.1.trans (by decide)⟩

end TodoChoichoi

namespace TodoChoichoi

/-! ## Status codes -/

/-- The three shapes an outcome can take, and what each says about the
response: the body did not bind, a store call failed, or all went well. -/
theorem status_of_shape (o : Outcome) (bf : Bool)
    (h : (bf = true ∧ o.resp.code = 400 ∧ (∃ s, o.resp.body = Body.text s) ∧ o.calls = [])
      ∨ (bf = false ∧ o.resp.code = 400 ∧ (∃ s, o.resp.body = Body.text s)
          ∧ ∃ c ∈ o.calls, c.failed = true)
      ∨ (bf = false ∧ o.resp.code = 200 ∧ ∀ c ∈ o.calls, c.failed = false)) :
    (o.resp.code = 200 ∨ o.resp.code = 400)
    ∧ (o.resp.code = 400 ↔ (bf = true ∨ ∃ c ∈ o.calls, c.failed = true))
    ∧ (o.resp.code = 400 → ∃ s, o.resp.body = Body.text s)
    ∧ (o.resp.code = 200 ↔ (bf = false ∧ ∀ c ∈ o.calls, c.failed = false)) := by
  rcases h with ⟨h1, h2, h3, h4⟩ | ⟨h1, h2, h3, c, hc, hcf⟩ | ⟨h1, h2, h3⟩
  · refine ⟨Or.inr h2, ⟨fun _ => Or.inl h1, fun _ => h2⟩, fun _ => h3, ?_⟩
    constructor
    · intro h
      rw [h2] at h
      cases h
    · intro h
      rw [h1] at h
      cases h.1
  · refine ⟨Or.inr h2, ⟨fun _ => Or.inr ⟨c, hc, hcf⟩, fun _ => h2⟩, fun _ => h3, ?_⟩
    constructor
    · intro h
      rw [h2] at h
      cases h
    · intro h
      have := h.2 c hc
      rw [hcf] at this
      cases this
  · refine ⟨Or.inl h2, ?_, ?_, ⟨fun _ => ⟨h1, h3⟩, fun _ => h2⟩⟩
    · constructor
      · intro h
        rw [h2] at h
        cases h
      · rintro (h | ⟨c, hc, hcf⟩)
        · rw [h1] at h
          cases h
        · rw [h3 c hc] at hcf
          cases hcf
    · intro h
      rw [h2] at h
      cases h

/-- Shape of `saveAndRespond`. -/
theorem saveAndRespond_shape (db : DB) (env : Env) (id : String) (t : Todo) :
    ((saveAndRespond db env id t).resp.code = 400
        ∧ (∃ s, (saveAndRespond db env id t).resp.body = Body.text s)
        ∧ (∃ c ∈ (saveAndRespond db env id t).calls, c.failed = true)
        ∧ ∃ e, gormSave db env t = Except.error e)
    ∨ ((saveAndRespond db env id t).resp.code = 200
        ∧ (∀ c ∈ (saveAndRespond db env id t).calls, c.failed = false)
        ∧ ¬ ∃ e, gormSave db env t = Except.error e) := by
  unfold saveAndRespond
  cases hg : gormSave db env t with
  | error e =>
    left
    exact ⟨rfl, ⟨e, rfl⟩, ⟨DBCall.save t false, by simp, rfl⟩, e, rfl⟩
  | ok p =>
    right
    refine ⟨ginJSON_code _ _, ?_, ?_⟩
    · intro c hc
      simp only [List.mem_cons, List.mem_singleton, List.not_mem_nil, or_false] at hc
      rcases hc with h | h <;> rw [h] <;> rfl
    · rintro ⟨e, he⟩
      cases he

/-- Shape of `createAndRespond`. -/
theorem createAndRespond_shape (db : DB) (env : Env) (t : Todo) :
    ((createAndRespond db env t).resp.code = 400
        ∧ (∃ s, (createAndRespond db env t).resp.body = Body.text s)
        ∧ (∃ c ∈ (createAndRespond db env t).calls, c.failed = true)
        ∧ ∃ e, gormCreate db env t = Except.error e)
    ∨ ((createAndRespond db env t).resp.code = 200
        ∧ (∀ c ∈ (createAndRespond db env t).calls, c.failed = false)
        ∧ ¬ ∃ e, gormCreate db env t = Except.error e) := by
  unfold createAndRespond
  cases hg : gormCreate db env t with
  | error e =>
    left
    exact ⟨rfl, ⟨e, rfl⟩, ⟨DBCall.create t false, by simp, rfl⟩, e, rfl⟩
  | ok p =>
    right
    refine ⟨ginJSON_code _ _, ?_, ?_⟩
    · intro c hc
      simp only [List.mem_singleton] at hc
      rw [hc]
      rfl
    · rintro ⟨e, he⟩
      cases he

/-- The client error of `saveAndRespond` after a lookup that found the record
with the given id: exactly when `Save` fails. -/
theorem found_clientError_iff {db : DB} {env : Env} {id : String} {existing t : Todo}
    (hf : gormFirst db env id = Except.ok existing) (hID : t.ID = existing.ID) :
    (∃ e, gormSave db env t = Except.error e) ↔
      (env.readErr ≠ none ∨ (∀ r ∈ db.rows, r.ID ≠ id) ∨ env.writeErr ≠ none
        ∨ (id = "" ∧ ∃ x ∈ db.rows, x.ID = env.uuid)) := by
  obtain ⟨hmem, hid, hr⟩ := gormFirst_ok hf
  rw [gormSave_error_iff, hID, hid]
  constructor
  · rintro (h | h)
    · exact Or.inr (Or.inr (Or.inl h))
    · exact Or.inr (Or.inr (Or.inr h))
  · rintro (h | h | h | h)
    · exact absurd hr h
    · exact absurd hid (h existing hmem)
    · exact Or.inl h
    · exact Or.inr h

/-- The status is 400 exactly on the causes of a client error. -/
theorem serve_400_iff (db : DB) (env : Env) (req : Request) :
    (serve db env req).resp.code = 400 ↔ req.clientError db env := by
  cases req with
  | Create b =>
    cases b with
    | none => exact ⟨fun _ => Or.inl rfl, fun _ => rfl⟩
    | some input =>
      obtain ⟨t, hID, _, _, _, _, hC⟩ := Create_bound db env input
      simp only [serve, Request.clientError]
      rw [hC]
      have hiff := gormCreate_error_iff db env t
      rw [hID] at hiff
      rcases createAndRespond_shape db env t with ⟨h1, _, _, h4⟩ | ⟨h1, _, h4⟩
      · constructor
        · intro _
          rcases hiff.1 h4 with h | h
          · exact Or.inr (Or.inl h)
          · exact Or.inr (Or.inr ⟨input, rfl, h⟩)
        · intro _
          exact h1
      · constructor
        · intro h
          rw [h1] at h
          cases h
        · rintro (h | h | ⟨i, hi, h⟩)
          · cases h
          · exact absurd (hiff.2 (Or.inl h)) h4
          · injection hi with hi
            subst hi
            exact absurd (hiff.2 (Or.inr h)) h4
  | List =>
    simp only [serve, Request.clientError, TodoHandler.List, gormFindOrdered]
    cases hr : env.readErr with
    | some e => simp [StatusBadRequest]
    | none => simp [ginJSONList_code, StatusOK]
  | Update id b =>
    cases b with
    | none => exact ⟨fun _ => Or.inl rfl, fun _ => rfl⟩
    | some input =>
      simp only [serve, Request.clientError]
      cases hf : gormFirst db env id with
      | error e =>
        rw [Update_not_found input hf]
        constructor
        · intro _
          rcases gormFirst_error hf with h | h
          · exact Or.inr (Or.inl h)
          · exact Or.inr (Or.inr (Or.inl h))
        · intro _
          rfl
      | ok existing =>
        obtain ⟨t, hID, _, _, _, _, _, hU⟩ := Update_found input hf
        rw [hU]
        have hiff := found_clientError_iff hf hID
        rcases saveAndRespond_shape db env id t with ⟨h1, _, _, h4⟩ | ⟨h1, _, h4⟩
        · exact ⟨fun _ => Or.inr (hiff.1 h4), fun _ => h1⟩
        · constructor
          · intro h
            rw [h1] at h
            cases h
          · rintro (h | h)
            · cases h
            · exact absurd (hiff.2 h) h4
  | Delete id =>
    simp only [serve, Request.clientError, TodoHandler.Delete, gormDelete]
    cases hw : env.writeErr with
    | some e => simp [StatusBadRequest]
    | none => simp [StatusOK]
  | ToggleComplete id b =>
    cases b with
    | none => exact ⟨fun _ => Or.inl rfl, fun _ => rfl⟩
    | some completed =>
      simp only [serve, Request.clientError]
      cases hf : gormFirst db env id with
      | error e =>
        rw [ToggleComplete_not_found completed hf]
        constructor
        · intro _
          rcases gormFirst_error hf with h | h
          · exact Or.inr (Or.inl h)
          · exact Or.inr (Or.inr (Or.inl h))
        · intro _
          rfl
      | ok existing =>
        obtain ⟨t, hID, _, _, _, _, _, hU⟩ := ToggleComplete_found completed hf
        rw [hU]
        have hiff := found_clientError_iff hf hID
        rcases saveAndRespond_shape db env id t with ⟨h1, _, _, h4⟩ | ⟨h1, _, h4⟩
        · exact ⟨fun _ => Or.inr (hiff.1 h4), fun _ => h1⟩
        · constructor
          · intro h
            rw [h1] at h
            cases h
          · rintro (h | h)
            · cases h
            · exact absurd (hiff.2 h) h4

end TodoChoichoi

namespace TodoChoichoi

/-- Every outcome has one of the three shapes, and a failing lookup in its
trace is a database error or a missing record. -/
theorem serve_shape (db : DB) (env : Env) (req : Request) :
    ((req.bindFails = true ∧ (serve db env req).resp.code = 400
        ∧ (∃ s, (serve db env req).resp.body = Body.text s) ∧ (serve db env req).calls = [])
      ∨ (req.bindFails = false ∧ (serve db env req).resp.code = 400
        ∧ (∃ s, (serve db env req).resp.body = Body.text s)
        ∧ ∃ c ∈ (serve db env req).calls, c.failed = true)
      ∨ (req.bindFails = false ∧ (serve db env req).resp.code = 200
        ∧ ∀ c ∈ (serve db env req).calls, c.failed = false))
    ∧ (∀ id, DBCall.first id false ∈ (serve db env req).calls →
        env.readErr ≠ none ∨ ∀ r ∈ db.rows, r.ID ≠ id) := by
  cases req with
  | Create b =>
    cases b with
    | none => exact ⟨Or.inl ⟨rfl, rfl, ⟨_, rfl⟩, rfl⟩, by simp [serve, TodoHandler.Create]⟩
    | some input =>
      obtain ⟨t, _, _, _, _, _, hC⟩ := Create_bound db env input
      simp only [serve]
      rw [hC]
      constructor
      · rcases createAndRespond_shape db env t with ⟨h1, h2, h3, _⟩ | ⟨h1, h2, _⟩
        · exact Or.inr (Or.inl ⟨rfl, h1, h2, h3⟩)
        · exact Or.inr (Or.inr ⟨rfl, h1, h2⟩)
      · intro id hid
        obtain ⟨ok, hcalls, _⟩ := (createAndRespond_spec db env t).1
        rw [hcalls] at hid
        simp at hid
  | List =>
    simp only [serve, TodoHandler.List]
    cases gormFindOrdered db env with
    | error e =>
      exact ⟨Or.inr (Or.inl ⟨rfl, rfl, ⟨e, rfl⟩, DBCall.find false, by simp, rfl⟩), by simp⟩
    | ok items =>
      refine ⟨Or.inr (Or.inr ⟨rfl, ginJSONList_code _ _, ?_⟩), by simp⟩
      intro c hc
      simp only [List.mem_singleton] at hc
      rw [hc]
      rfl
  | Update id b =>
    cases b with
    | none => exact ⟨Or.inl ⟨rfl, rfl, ⟨_, rfl⟩, rfl⟩, by simp [serve, TodoHandler.Update]⟩
    | some input =>
      simp only [serve]
      cases hf : gormFirst db env id with
      | error e =>
        rw [Update_not_found input hf]
        refine ⟨Or.inr (Or.inl ⟨rfl, rfl, ⟨_, rfl⟩, DBCall.first id false, by simp, rfl⟩), ?_⟩
        intro id1 h1
        simp only [List.mem_singleton, DBCall.first.injEq, and_true] at h1
        rw [h1]
        exact gormFirst_error hf
      | ok existing =>
        obtain ⟨t, _, _, _, _, _, _, hU⟩ := Update_found input hf
        rw [hU]
        constructor
        · rcases saveAndRespond_shape db env id t with ⟨h1, h2, h3, _⟩ | ⟨h1, h2, _⟩
          · exact Or.inr (Or.inl ⟨rfl, h1, h2, h3⟩)
          · exact Or.inr (Or.inr ⟨rfl, h1, h2⟩)
        · intro id1 h1
          obtain ⟨ok, hcalls, _⟩ := (saveAndRespond_spec db env id t).1
          rw [hcalls] at h1
          simp at h1
  | Delete id =>
    simp only [serve, TodoHandler.Delete]
    cases gormDelete db env id with
    | error e =>
      exact ⟨Or.inr (Or.inl ⟨rfl, rfl, ⟨e, rfl⟩, DBCall.delete id false, by simp, rfl⟩),
        by simp⟩
    | ok db1 =>
      refine ⟨Or.inr (Or.inr ⟨rfl, rfl, ?_⟩), by simp⟩
      intro c hc
      simp only [List.mem_singleton] at hc
      rw [hc]
      rfl
  | ToggleComplete id b =>
    cases b with
    | none =>
      exact ⟨Or.inl ⟨rfl, rfl, ⟨_, rfl⟩, rfl⟩, by simp [serve, TodoHandler.ToggleComplete]⟩
    | some completed =>
      simp only [serve]
      cases hf : gormFirst db env id with
      | error e =>
        rw [ToggleComplete_not_found completed hf]
        refine ⟨Or.inr (Or.inl ⟨rfl, rfl, ⟨_, rfl⟩, DBCall.first id false, by simp, rfl⟩), ?_⟩
        intro id1 h1
        simp only [List.mem_singleton, DBCall.first.injEq, and_true] at h1
        rw [h1]
        exact gormFirst_error hf
      | ok existing =>
        obtain ⟨t, _, _, _, _, _, _, hU⟩ := ToggleComplete_found completed hf
        rw [hU]
        constructor
        · rcases saveAndRespond_shape db env id t with ⟨h1, h2, h3, _⟩ | ⟨h1, h2, _⟩
          · exact Or.inr (Or.inl ⟨rfl, h1, h2, h3⟩)
          · exact Or.inr (Or.inr ⟨rfl, h1, h2⟩)
        · intro id1 h1
          obtain ⟨ok, hcalls, _⟩ := (saveAndRespond_spec db env id t).1
          rw [hcalls] at h1
          simp at h1

/-- C7: whichever of the five handlers serves a request, on whatever table and
store outcome, the response status is 200 or 400.  It is 400, with a plain-text
body, exactly when the body fails to bind, the lookup finds no record, or a
store call returns an error (read off the request, the table and the
environment by `Request.clientError`), and 200 exactly otherwise.  In terms of
the calls issued: it is 400 exactly when the body fails to bind or a call in
the trace failed, and a failing lookup is a database error or a missing
record. -/
theorem serve_status_200_or_400 (db : DB) (env : Env) (req : Request) :
    ((serve db env req).resp.code = 200 ∨ (serve db env req).resp.code = 400)
    ∧ ((serve db env req).resp.code = 400 ↔ req.clientError db env)
    ∧ ((serve db env req).resp.code = 200 ↔ ¬ req.clientError db env)
    ∧ ((serve db env req).resp.code = 400 → ∃ s, (serve db env req).resp.body = Body.text s)
    ∧ ((serve db env req).resp.code = 400 ↔
        (req.bindFails = true ∨ ∃ c ∈ (serve db env req).calls, c.failed = true))
    ∧ ((serve db env req).resp.code = 200 ↔
        (req.bindFails = false ∧ ∀ c ∈ (serve db env req).calls, c.failed = false))
    ∧ (∀ id, DBCall.first id false ∈ (serve db env req).calls →
        env.readErr ≠ none ∨ ∀ r ∈ db.rows, r.ID ≠ id) := by
  obtain ⟨hshape, hfirst⟩ := serve_shape db env req
  obtain ⟨h1, h2, h3, h4⟩ := status_of_shape (serve db env req) req.bindFails hshape
  have h400 := serve_400_iff db env req
  refine ⟨h1, h400, ?_, h3, h2, h4, hfirst⟩
  constructor
  · intro h hc
    rw [h400.2 hc] at h
    cases h
  · intro hn
    rcases h1 with h | h
    · exact h
    · exact absurd (h400.1 h) hn

end TodoChoichoi

namespace TodoChoichoi

/-! ## What a request writes and returns -/

theorem writtenBy_subset_records (o : Outcome) : ∀ t ∈ writtenBy o.calls, t ∈ o.records := by
  intro t ht
  unfold Outcome.records
  exact List.mem_append_left _ ht

theorem writtenBy_append (a b : List DBCall) : writtenBy (a ++ b) = writtenBy a ++ writtenBy b := by
  unfold writtenBy
  exact List.filterMap_append _ _ _

/-- Where the records of an outcome come from: a bound `Create` payload, a
bound `Update` payload merged into the record found, or the record found with
its status set by `ToggleComplete`. -/
theorem serve_records (db : DB) (env : Env) (req : Request) :
    ∀ r ∈ (serve db env req).records,
      (∃ input, req = Request.Create (some input)
          ∧ r.Status = (if input.Status = "" then "pending" else input.Status)
          ∧ r.DueAt = input.DueAt.map Time.UTC)
      ∨ (∃ id input existing, req = Request.Update id (some input)
          ∧ gormFirst db env id = Except.ok existing
          ∧ (input.Status ≠ "" → r.Status = input.Status)
          ∧ r.DueAt = (match input.DueAt with
                       | some d => some d.UTC
                       | none => existing.DueAt))
      ∨ (∃ id completed existing, req = Request.ToggleComplete id (some completed)
          ∧ gormFirst db env id = Except.ok existing
          ∧ r.Status = (if completed then "completed" else "pending")
          ∧ r.DueAt = existing.DueAt) := by
  intro r hr
  cases req with
  | Create b =>
    cases b with
    | none => simp [serve, TodoHandler.Create, Outcome.records, writtenBy, Response.record] at hr
    | some input =>
      left
      obtain ⟨t, _, _, _, hS, hD, hC⟩ := Create_bound db env input
      simp only [serve] at hr
      rw [hC] at hr
      obtain ⟨_, _, h3, h4⟩ := createAndRespond_fields db env t r hr
      have hne : t.Status ≠ "" := by
        rw [hS]
        by_cases h : input.Status = ""
        · rw [if_pos h]
          decide
        · rw [if_neg h]
          exact h
      exact ⟨input, rfl, by rw [h4 hne, hS], by rw [h3, hD]⟩
  | List =>
    simp only [serve, TodoHandler.List] at hr
    cases hg : gormFindOrdered db env with
    | error e => simp [hg, Outcome.records, writtenBy, Response.record, DBCall.written] at hr
    | ok items =>
      simp only [hg, Outcome.records, writtenBy, DBCall.written, List.filterMap_cons,
        List.filterMap_nil, List.nil_append, Option.mem_toList, Option.mem_def] at hr
      unfold ginJSONList at hr
      split at hr <;> simp [Response.record] at hr
  | Update id b =>
    cases b with
    | none => simp [serve, TodoHandler.Update, Outcome.records, writtenBy, Response.record] at hr
    | some input =>
      simp only [serve] at hr
      cases hf : gormFirst db env id with
      | error e =>
        rw [Update_not_found input hf] at hr
        simp [Outcome.records, writtenBy, Response.record, DBCall.written] at hr
      | ok existing =>
        right; left
        obtain ⟨t, _, _, _, _, hS, hD, hU⟩ := Update_found input hf
        rw [hU] at hr
        obtain ⟨_, _, h3, h4⟩ := saveAndRespond_fields db env id t r hr
        refine ⟨id, input, existing, rfl, hf, ?_, by rw [h3, hD]⟩
        intro hne
        rw [h4 (Or.inl (by rw [hS]; exact hne)), hS]
  | Delete id =>
    simp only [serve, TodoHandler.Delete] at hr
    cases hg : gormDelete db env id <;>
      simp [hg, Outcome.records, writtenBy, Response.record, DBCall.written] at hr
  | ToggleComplete id b =>
    cases b with
    | none =>
      simp [serve, TodoHandler.ToggleComplete, Outcome.records, writtenBy, Response.record] at hr
    | some completed =>
      simp only [serve] at hr
      cases hf : gormFirst db env id with
      | error e =>
        rw [ToggleComplete_not_found completed hf] at hr
        simp [Outcome.records, writtenBy, Response.record, DBCall.written] at hr
      | ok existing =>
        right; right
        obtain ⟨t, _, _, _, _, hD, hS, hU⟩ := ToggleComplete_found completed hf
        rw [hU] at hr
        obtain ⟨_, _, h3, h4⟩ := saveAndRespond_fields db env id t r hr
        have hne : t.Status ≠ "" := by
          rw [hS]
          cases completed <;> decide
        exact ⟨id, completed, existing, rfl, hf, by rw [h4 (Or.inl hne), hS], by rw [h3, hD]⟩

/-- Every row of the table after a request was there before, or is what gorm
left of a record the handler handed to `Create` / `Save`: same dueAt, and the
same status unless gorm filled in the default. -/
theorem serve_rows (db : DB) (env : Env) (req : Request) :
    ∀ x ∈ (serve db env req).db.rows,
      x ∈ db.rows
        ∨ ∃ t ∈ writtenBy (serve db env req).calls,
            x.DueAt = t.DueAt ∧ (x.Status = t.Status ∨ x.Status = "pending") := by
  intro x hx
  have hsave : ∀ id t, x ∈ (saveAndRespond db env id t).db.rows →
      x ∈ db.rows ∨ ∃ t1 ∈ writtenBy (saveAndRespond db env id t).calls,
        x.DueAt = t1.DueAt ∧ (x.Status = t1.Status ∨ x.Status = "pending") := by
    intro id t hx
    obtain ⟨ok, hcalls, _⟩ := (saveAndRespond_spec db env id t).1
    cases hg : gormSave db env t with
    | error e =>
      rw [((saveAndRespond_spec db env id t).2.2.2.2 e hg).2] at hx
      exact Or.inl hx
    | ok p =>
      obtain ⟨r, db1⟩ := p
      obtain ⟨_, h2⟩ := (saveAndRespond_spec db env id t).2.2.2.1 r db1 hg
      rw [h2] at hx
      rcases (gormSave_ok hg).2.2.2.2.2 x hx with h | h
      · exact Or.inl h
      · right
        refine ⟨t, ?_, ?_, ?_⟩
        · rw [hcalls]
          simp [writtenBy, DBCall.written]
        · rw [h]
          exact (gormSave_ok hg).2.2.1
        · rw [h]
          exact gormSave_status hg
  cases req with
  | Create b =>
    cases b with
    | none => exact Or.inl hx
    | some input =>
      obtain ⟨t, _, _, _, _, _, hC⟩ := Create_bound db env input
      simp only [serve] at hx ⊢
      rw [hC] at hx ⊢
      obtain ⟨ok, hcalls, _⟩ := (createAndRespond_spec db env t).1
      cases hg : gormCreate db env t with
      | error e =>
        rw [((createAndRespond_spec db env t).2.2.2.2 e hg).2] at hx
        exact Or.inl hx
      | ok p =>
        obtain ⟨r, db1⟩ := p
        obtain ⟨_, h2⟩ := (createAndRespond_spec db env t).2.2.2.1 r db1 hg
        rw [h2, (gormCreate_ok hg).2] at hx
        simp only [List.mem_append, List.mem_singleton] at hx
        rcases hx with h | h
        · exact Or.inl h
        · right
          refine ⟨t, ?_, ?_, ?_⟩
          · rw [hcalls]
            simp [writtenBy, DBCall.written]
          · rw [h, (gormCreate_ok hg).1]
            rfl
          · rw [h, (gormCreate_ok hg).1, (gormFillDefaults_fields env t).2.2.2]
            by_cases hs : t.Status = ""
            · rw [if_pos hs]
              exact Or.inr rfl
            · rw [if_neg hs]
              exact Or.inl rfl
  | List =>
    simp only [serve, TodoHandler.List] at hx
    split at hx <;> exact Or.inl hx
  | Update id b =>
    cases b with
    | none => exact Or.inl hx
    | some input =>
      simp only [serve] at hx ⊢
      cases hf : gormFirst db env id with
      | error e =>
        rw [Update_not_found input hf] at hx
        exact Or.inl hx
      | ok existing =>
        obtain ⟨t, _, _, _, _, _, _, hU⟩ := Update_found input hf
        rw [hU] at hx ⊢
        exact hsave id t hx
  | Delete id =>
    simp only [serve, TodoHandler.Delete] at hx
    unfold gormDelete at hx
    cases hw : env.writeErr with
    | some e =>
      simp only [hw] at hx
      exact Or.inl hx
    | none =>
      simp only [hw] at hx
      exact Or.inl (List.mem_of_mem_filter hx)
  | ToggleComplete id b =>
    cases b with
    | none => exact Or.inl hx
    | some completed =>
      simp only [serve] at hx ⊢
      cases hf : gormFirst db env id with
      | error e =>
        rw [ToggleComplete_not_found completed hf] at hx
        exact Or.inl hx
      | ok existing =>
        obtain ⟨t, _, _, _, _, _, _, hU⟩ := ToggleComplete_found completed hf
        rw [hU] at hx ⊢
        exact hsave id t hx

end TodoChoichoi

namespace TodoChoichoi

/-! ## dueAt in UTC -/

theorem DueUTC_map_UTC (d : Option Time) : DueUTC (d.map Time.UTC) := by
  intro t ht
  cases d with
  | none => simp at ht
  | some x =>
    simp only [Option.map_some', Option.some.injEq] at ht
    rw [← ht]
    rfl

/-- C10: in a table whose present dueAt are all in UTC, every record a request
hands to the store or returns has its dueAt absent or in UTC, and so has every
row of the table afterwards; that dueAt is the payload dueAt converted to UTC
(same instant) for Create and for Update with a dueAt, and the stored dueAt for
Update without one and for ToggleComplete; converting keeps the instant, gives
location UTC, and leaves a time already in UTC as it is. -/
theorem dueAt_always_utc (db : DB) (env : Env) (req : Request)
    (hdb : ∀ r ∈ db.rows, DueUTC r.DueAt) :
    (∀ r ∈ (serve db env req).records, DueUTC r.DueAt)
    ∧ (∀ r ∈ (serve db env req).db.rows, DueUTC r.DueAt)
    ∧ (∀ input, req = Request.Create (some input) →
        (∃ t ok, (serve db env req).calls = [DBCall.create t ok])
        ∧ ∀ r ∈ (serve db env req).records, r.DueAt = input.DueAt.map Time.UTC)
    ∧ (∀ id input d, req = Request.Update id (some input) → input.DueAt = some d →
        ∀ r ∈ (serve db env req).records, r.DueAt = some d.UTC)
    ∧ (∀ id input existing, req = Request.Update id (some input) → input.DueAt = none →
        gormFirst db env id = Except.ok existing →
        ∀ r ∈ (serve db env req).records, r.DueAt = existing.DueAt)
    ∧ (∀ id completed existing, req = Request.ToggleComplete id (some completed) →
        gormFirst db env id = Except.ok existing →
        ∀ r ∈ (serve db env req).records, r.DueAt = existing.DueAt)
    ∧ (∀ d : Time, d.UTC.instant = d.instant ∧ d.UTC.loc = Location.utc
        ∧ (d.loc = Location.utc → d.UTC = d)) := by
  have hrec : ∀ r ∈ (serve db env req).records, DueUTC r.DueAt := by
    intro r hr
    rcases serve_records db env req r hr with
      ⟨input, _, _, hD⟩ | ⟨id, input, existing, _, hf, _, hD⟩ | ⟨id, c, existing, _, hf, _, hD⟩
    · rw [hD]
      exact DueUTC_map_UTC _
    · rw [hD]
      cases hi : input.DueAt with
      | none => exact hdb existing (gormFirst_ok hf).1
      | some d => exact DueUTC_map_UTC (some d)
    · rw [hD]
      exact hdb existing (gormFirst_ok hf).1
  refine ⟨hrec, ?_, ?_, ?_, ?_, ?_, ?_⟩
  · intro r hr
    rcases serve_rows db env req r hr with h | ⟨t, ht, hD, _⟩
    · exact hdb r h
    · rw [hD]
      exact hrec t (writtenBy_subset_records _ t ht)
  · intro input hreq
    subst hreq
    constructor
    · obtain ⟨t, _, _, _, _, _, hC⟩ := Create_bound db env input
      simp only [serve]
      rw [hC]
      obtain ⟨ok, h, _⟩ := (createAndRespond_spec db env t).1
      exact ⟨t, ok, h⟩
    · intro r hr
      rcases serve_records db env _ r hr with
        ⟨i, hi, _, hD⟩ | ⟨_, _, _, hi, _⟩ | ⟨_, _, _, hi, _⟩
      · injection hi with hi
        injection hi with hi
        subst hi
        exact hD
      · cases hi
      · cases hi
  · intro id input d hreq hd r hr
    subst hreq
    rcases serve_records db env _ r hr with
      ⟨_, hi, _⟩ | ⟨id1, i, e, hi, hf, _, hD⟩ | ⟨_, _, _, hi, _⟩
    · cases hi
    · injection hi with h1 h2
      injection h2 with h2
      subst h1 h2
      rw [hD, hd]
    · cases hi
  · intro id input existing hreq hd hf r hr
    subst hreq
    rcases serve_records db env _ r hr with
      ⟨_, hi, _⟩ | ⟨id1, i, e, hi, hf1, _, hD⟩ | ⟨_, _, _, hi, _⟩
    · cases hi
    · injection hi with h1 h2
      injection h2 with h2
      subst h1 h2
      rw [hf] at hf1
      injection hf1 with hf1
      subst hf1
      rw [hD, hd]
    · cases hi
  · intro id completed existing hreq hf r hr
    subst hreq
    rcases serve_records db env _ r hr with
      ⟨_, hi, _⟩ | ⟨_, _, _, hi, _⟩ | ⟨id1, c, e, hi, hf1, _, hD⟩
    · cases hi
    · cases hi
    · injection hi with h1 h2
      subst h1
      rw [hf] at hf1
      injection hf1 with hf1
      subst hf1
      exact hD
  · intro d
    refine ⟨rfl, rfl, ?_⟩
    intro h
    obtain ⟨i, l⟩ := d
    simp only at h
    subst h
    rfl

theorem dueAt_always_utc_witness :
    (∀ r ∈ sampleDB.rows, DueUTC r.DueAt)
    ∧ (serve sampleDB sampleEnv (Request.Create (some (bindTodo samplePayload)))).records.map
        Todo.DueAt
        = [some { instant := 7000, loc := Location.utc }, some { instant := 7000, loc := Location.utc }]
    ∧ ∀ r ∈ (serve sampleDB sampleEnv (Request.Create (some (bindTodo samplePayload)))).db.rows,
        DueUTC r.DueAt :=
  ⟨by intro r hr t ht; simp [sampleDB, sampleTodo] at hr; subst hr; simp at ht; rw [← ht],
   by decide,
   (dueAt_always_utc sampleDB sampleEnv (Request.Create (some (bindTodo samplePayload)))
      (by intro r hr t ht; simp [sampleDB, sampleTodo] at hr; subst hr; simp at ht; rw [← ht])).2.1⟩

/-! ## The status enumeration -/

/-- One request whose payload status is of the enumeration (empty allowed for
Create) keeps every status in the enumeration. -/
theorem serve_status_valid (db : DB) (env : Env) (req : Request)
    (hdb : ∀ r ∈ db.rows, StatusValid r.Status) (hadm : req.statusAdmissible) :
    (∀ r ∈ (serve db env req).records, StatusValid r.Status)
    ∧ (∀ r ∈ (serve db env req).db.rows, StatusValid r.Status) := by
  have hrec : ∀ r ∈ (serve db env req).records, StatusValid r.Status := by
    intro r hr
    rcases serve_records db env req r hr with
      ⟨input, hreq, hS, _⟩ | ⟨id, input, existing, hreq, _, hS, _⟩ | ⟨id, c, existing, _, _, hS, _⟩
    · subst hreq
      rw [hS]
      by_cases h : input.Status = ""
      · rw [if_pos h]
        exact Or.inl rfl
      · rw [if_neg h]
        rcases hadm with h1 | h1
        · exact absurd h1 h
        · exact h1
    · subst hreq
      have hv : StatusValid input.Status := hadm
      have hne : input.Status ≠ "" := by
        rcases hv with h | h <;> rw [h] <;> decide
      rw [hS hne]
      exact hv
    · rw [hS]
      cases c
      · exact Or.inl rfl
      · exact Or.inr rfl
  refine ⟨hrec, ?_⟩
  intro r hr
  rcases serve_rows db env req r hr with h | ⟨t, ht, _, hS | hS⟩
  · exact hdb r h
  · rw [hS]
    exact hrec t (writtenBy_subset_records _ t ht)
  · exact Or.inl hS

/-- C1: the handlers pass a status outside the enumeration to the store.  On
the empty table, a Create whose payload has status "archived" hands a record
with status "archived" to `DB.Create` and the row is inserted with it; on a
table holding one pending record, an Update whose payload omits status hands
the empty status to `DB.Save` and the row is saved with it, where Create would
have put "pending". -/
theorem status_invariant_counterexample :
    ((serveAll { rows := [] }
        [(sampleEnv,
          Request.Create (some { bindTodo samplePayload with Status := "archived" }))]).1.rows.map
        Todo.Status = ["archived"]
      ∧ (writtenBy (serveAll { rows := [] }
        [(sampleEnv,
          Request.Create (some { bindTodo samplePayload with Status := "archived" }))]).2).map
        Todo.Status = ["archived"]
      ∧ ¬ StatusValid "archived")
    ∧ ((∀ r ∈ sampleDB.rows, StatusValid r.Status)
      ∧ (bindTodo samplePayload).Status = ""
      ∧ (serveAll sampleDB
          [(sampleEnv, Request.Update "u-1" (some (bindTodo samplePayload)))]).1.rows.map
          Todo.Status = [""]
      ∧ (writtenBy (serveAll sampleDB
          [(sampleEnv, Request.Update "u-1" (some (bindTodo samplePayload)))]).2).map
          Todo.Status = [""]
      ∧ (writtenBy (serveAll sampleDB
          [(sampleEnv, Request.Create (some (bindTodo samplePayload)))]).2).map
          Todo.Status = ["pending"]
      ∧ ¬ StatusValid "") := by
  decide

end TodoChoichoi
